import Mathlib

/-
Verification of the YAML merge/patch engine of godel-golangci-lint-plugin
(package config, file config.go), as a shallow embedding.

Documents are modelled as parsed YAML values (an ordered mapping preserves key
order as a list).  Functions of config.go are translated one by one; the two
external collaborators (the goccy go-yaml path reader used by checkNodeExists,
and the yamlpatch patch parser/applier) are modelled from the specification and
carry a comment saying so.
-/

/-
String helpers.  The Go code uses strings.Split and strings.ReplaceAll with
single-character separators; these are rendered structurally over the list of
characters of the string so that they compute by kernel reduction.
-/

/-- splitChars c cs splits the character list cs at every occurrence of c,
    exactly as strings.Split does for a single-character separator:
    the result is always non-empty, and separators at the ends yield empty
    pieces. -/
def splitChars (c : Char) : List Char → List (List Char)
  | [] => [[]]
  | ch :: rest =>
    match splitChars c rest with
    | [] => [[]]
    | h :: t => if ch = c then [] :: h :: t else (ch :: h) :: t

/-- splitOnChar renders strings.Split(s, sep) for a one-character sep. -/
def splitOnChar (s : String) (c : Char) : List String :=
  (splitChars c s.data).map (fun cs => String.mk cs)

/-- replaceChar renders strings.ReplaceAll(s, old, new) for one-character
    old and new. -/
def replaceChar (s : String) (a b : Char) : String :=
  String.mk (s.data.map (fun ch => if ch = a then b else ch))

/-- startsWithChar renders a test that the string starts with the given
    character. -/
def startsWithChar (s : String) (c : Char) : Bool :=
  match s.data with
  | [] => false
  | ch :: _ => ch = c

/-
Data model: parsed YAML values.
-/

/-- Yaml is a parsed YAML document value: null, a scalar, a sequence, or an
    ordered mapping (list of key/value pairs in document order). -/
inductive Yaml where
  | null : Yaml
  | scalar : String → Yaml
  | seq : List Yaml → Yaml
  | map : List (String × Yaml) → Yaml

/-- YamlKey is the key of an entry of a yaml.MapSlice. In Go the key has type
    any; a non-string key is represented by its printed form. -/
inductive YamlKey where
  | str : String → YamlKey
  | nonString : String → YamlKey
deriving DecidableEq, Repr

/-- MapItem corresponds to goccy yaml.MapItem (Key any; Value any). -/
structure MapItem where
  key : YamlKey
  value : Yaml

/-- MapSlice corresponds to goccy yaml.MapSlice: an order-preserving list of
    map items. -/
abbrev MapSlice := List MapItem

/-- YamlKey.text is the printed form of a key (what the Go %v verb shows). -/
def YamlKey.text : YamlKey → String
  | .str s => s
  | .nonString t => t

/-- MapItem.isStringKey is true when the item's key is a Go string. -/
def MapItem.isStringKey (item : MapItem) : Bool :=
  match item.key with
  | .str _ => true
  | .nonString _ => false

/-- MapSlice.toYaml is the mapping value a MapSlice denotes.  It is only used
    on slices whose keys are all strings (createSetYAMLMapValuePatch rejects
    any other slice before this conversion can matter). -/
def MapSlice.toYaml (m : MapSlice) : Yaml :=
  Yaml.map (m.map (fun item => (item.key.text, item.value)))

/-- MapSlice.keyTexts lists the printed keys of a MapSlice in order. -/
def MapSlice.keyTexts (m : MapSlice) : List String :=
  m.map (fun item => item.key.text)

/-- OpType is the yamlpatch operation type: OperationAdd or OperationReplace
    (the only two kinds this engine emits). -/
inductive OpType where
  | add : OpType
  | replace : OpType
deriving DecidableEq, Repr

/-- Operation is a yamlpatch.Operation: a type, a parsed path (list of
    segments, with the leading empty root segment produced by path parsing),
    and a value. -/
structure Operation where
  type : OpType
  path : List String
  value : Yaml

/-- Patch is yamlpatch.Patch: an ordered list of operations. -/
abbrev Patch := List Operation

/-
PluginConfig data model (config.go types).
-/

/-- RulesConfig mirrors the Go RulesConfig struct. -/
structure RulesConfig where
  linters : List String
  path : String
  pathExcept : String
  text : String
  source : String
deriving DecidableEq, Repr

/-- ExclusionsConfig mirrors the Go ExclusionsConfig struct. -/
structure ExclusionsConfig where
  rules : List RulesConfig
  paths : List String
  pathsExcept : List String
deriving DecidableEq, Repr

/-- LintersConfig mirrors the Go LintersConfig struct. -/
structure LintersConfig where
  enable : List String
  disable : List String
  settings : MapSlice
  exclusions : ExclusionsConfig

/-- PluginConfig mirrors the Go PluginConfig struct. -/
structure PluginConfig where
  linters : LintersConfig

/-- RulesConfig.toYaml is the YAML value a rule marshals to.
    Modelled from the spec: the external goccy marshaller writes the struct
    fields in order under their yaml tags, omitting empty fields (omitempty). -/
def RulesConfig.toYaml (r : RulesConfig) : Yaml :=
  Yaml.map
    ((if r.linters.isEmpty then [] else
        [("linters", Yaml.seq (r.linters.map Yaml.scalar))]) ++
     (if r.path = "" then [] else [("path", Yaml.scalar r.path)]) ++
     (if r.pathExcept = "" then [] else
        [("path-except", Yaml.scalar r.pathExcept)]) ++
     (if r.text = "" then [] else [("text", Yaml.scalar r.text)]) ++
     (if r.source = "" then [] else [("source", Yaml.scalar r.source)]))

/-
Path handling (config.go lines 322-347 and the external yamlpatch parser).
-/

/-- yamlPatchPathToGoccyPathString translates config.go's function of the same
    name: prepend a dollar sign and, unless the input is the root path, append
    the input with every slash replaced by a dot. -/
def yamlPatchPathToGoccyPathString (inStr : String) : String :=
  "$" ++ (if inStr = "/" then "" else replaceChar inStr '/' '.')

/-- parseGoccyPath parses a goccy go-yaml path string of the dollar-dot form.
    Modelled from the spec: the goccy path parser is external to this
    repository; a path is well-formed when it is the dollar sign followed by
    dot-separated non-empty child names, and parsing fails otherwise
    (PathParseError of spec section 7). -/
def parseGoccyPath (s : String) : Option (List String) :=
  match splitOnChar s '.' with
  | [] => none
  | root :: segs =>
    if root = "$" then
      if segs.contains "" then none else some segs
    else none

/-- Yaml.lookupKey returns the value of the first entry of a mapping with the
    given key, and none for any other document shape. -/
def Yaml.lookupKey : Yaml → String → Option Yaml
  | Yaml.map es, k =>
    match es.find? (fun e => e.1 == k) with
    | none => none
    | some e => some e.2
  | _, _ => none

/-- readNode resolves a parsed goccy path against a document.
    Modelled from the spec: the external goccy ReadNode descends through
    mapping keys segment by segment and reports not-found when a segment is
    absent; a present null value is still a node (spec section 4.1). -/
def readNode : Yaml → List String → Option Yaml
  | doc, [] => some doc
  | doc, s :: rest =>
    match doc.lookupKey s with
    | none => none
    | some child => readNode child rest

/-- checkNodeExists translates config.go's checkNodeExists: convert the patch
    path to a goccy path, fail if that string does not parse, otherwise report
    whether a node is found (goccy's not-found error becomes the value false). -/
def checkNodeExists (yamlBytes : Yaml) (yamlPath : String) : Except String Bool :=
  match parseGoccyPath (yamlPatchPathToGoccyPathString yamlPath) with
  | none => Except.error ("failed to parse yamlPath " ++ yamlPath)
  | some segs =>
    match readNode yamlBytes segs with
    | none => Except.ok false
    | some _ => Except.ok true

/-- parsePath parses a structured patch path.
    Modelled from the spec: yamlpatch.ParsePath is external to this repository;
    the external form is slash-delimited segments with the root written as a
    single slash (spec section 6), so the root parses to the singleton list of
    the empty segment and any other path starting with a slash splits at every
    slash (yielding the leading empty root segment); anything else is
    malformed. -/
def parsePath (s : String) : Option (List String) :=
  if s = "/" then some [""]
  else if startsWithChar s '/' then some (splitOnChar s '/')
  else none

/-- mustParsePath renders yamlpatch.MustParsePath for the call sites of
    config.go, all of which pass paths starting with a slash, so the panic
    branch is unreachable and an arbitrary root default stands in for it. -/
def mustParsePath (s : String) : List String :=
  (parsePath s).getD [""]

/-
Patch construction (config.go lines 193-318).
-/

/-- nestValue wraps a value in single-entry mappings keyed by the given
    segments, outermost first. -/
def nestValue (segs : List String) (value : Yaml) : Yaml :=
  match segs with
  | [] => value
  | k :: rest => Yaml.map [(k, nestValue rest value)]

/-- createObjectsToAddForPath translates config.go's function of the same
    name.  The Go loop walks the slash-split segments from the last index down
    to index zero, prepending at each step a single-entry map keyed by the
    following segment; hence element idx of the result is the value wrapped in
    single-entry maps keyed by the segments after idx. -/
def createObjectsToAddForPath (yamlPath : String) (value : Yaml) : List Yaml :=
  let segments := splitOnChar yamlPath '/'
  (List.range segments.length).map (fun idx => nestValue (segments.drop (idx + 1)) value)

/-- walkFirstMissing translates the walk loop of addOrSetYAMLPatch
    (config.go lines 236-258): parts still to visit, the index of the next
    part, and the pathSoFar accumulator (reset to empty at index one, see the
    comment in the Go source).  It stops at the first prefix whose node does
    not exist, returning that prefix path and its index. -/
def walkFirstMissing (yamlBytes : Yaml) : List String → Nat → String → Except String (Option (String × Nat))
  | [], _, _ => Except.ok none
  | part :: rest, idx, pathSoFar =>
    let pathSoFar2 := (if idx = 1 then "" else pathSoFar) ++ "/" ++ part
    match checkNodeExists yamlBytes pathSoFar2 with
    | Except.error e => Except.error e
    | Except.ok true => walkFirstMissing yamlBytes rest (idx + 1) pathSoFar2
    | Except.ok false => Except.ok (some (pathSoFar2, idx))

/-- addOrSetYAMLPatch translates config.go's addOrSetYAMLPatch: if the
    destination node exists return the given set patch; otherwise walk the
    path prefixes and return a single Add at the first missing prefix whose
    value is the corresponding element of createObjectsToAddForPath.  The walk
    finding no missing prefix leaves the Go furthestExistingIdx at minus one
    and the indexing expression panics; that unreachable branch is rendered as
    an error. -/
def addOrSetYAMLPatch (yamlBytes : Yaml) (yamlPath : String) (setYAMLPatch : Patch) (value : Yaml) : Except String Patch :=
  match parsePath yamlPath with
  | none => Except.error ("failed to parse yamlPath " ++ yamlPath)
  | some parsedPath =>
    if parsedPath.length ≤ 1 then
      Except.error ("YAML path must have at least one segment after the root, but was " ++ yamlPath)
    else
      match checkNodeExists yamlBytes yamlPath with
      | Except.error e => Except.error e
      | Except.ok true => Except.ok setYAMLPatch
      | Except.ok false =>
        let objectsToAdd := createObjectsToAddForPath yamlPath value
        match walkFirstMissing yamlBytes parsedPath 0 "" with
        | Except.error e => Except.error e
        | Except.ok none => Except.error "index out of range"
        | Except.ok (some (pathSoFar, furthestExistingIdx)) =>
          Except.ok [⟨OpType.add, mustParsePath pathSoFar, objectsToAdd.getD furthestExistingIdx Yaml.null⟩]

/-- createSetYAMLMapValuePatchLoop translates the loop of
    createSetYAMLMapValuePatch (config.go lines 276-296): for each map item in
    order, fail if its key is not a string (the Go message prints the key and
    its index), otherwise emit Replace when the item's path already exists and
    Add when it does not. -/
def createSetYAMLMapValuePatchLoop (yamlBytes : Yaml) (yamlPath : String) : MapSlice → Nat → Except String Patch
  | [], _ => Except.ok []
  | item :: rest, idx =>
    match item.key with
    | YamlKey.nonString t =>
      Except.error ("map key " ++ t ++ " at index " ++ toString idx ++ " is not a string")
    | YamlKey.str mapItemKey =>
      let yamlPathToMapItem := yamlPath ++ "/" ++ mapItemKey
      match checkNodeExists yamlBytes yamlPathToMapItem with
      | Except.error e => Except.error e
      | Except.ok nodeExists =>
        match createSetYAMLMapValuePatchLoop yamlBytes yamlPath rest (idx + 1) with
        | Except.error e => Except.error e
        | Except.ok tail =>
          Except.ok (⟨if nodeExists then OpType.replace else OpType.add,
                      mustParsePath yamlPathToMapItem, item.value⟩ :: tail)

/-- createSetYAMLMapValuePatch translates config.go's function of the same
    name: an empty map yields no patch; otherwise build the per-key set patch
    and hand it to addOrSetYAMLPatch together with the whole map as the value
    to synthesize when the destination is missing. -/
def createSetYAMLMapValuePatch (yamlBytes : Yaml) (yamlPath : String) (mapValue : MapSlice) : Except String Patch :=
  if mapValue.isEmpty then Except.ok []
  else
    match createSetYAMLMapValuePatchLoop yamlBytes yamlPath mapValue 0 with
    | Except.error e => Except.error e
    | Except.ok setPatch => addOrSetYAMLPatch yamlBytes yamlPath setPatch (MapSlice.toYaml mapValue)

/-- createAddYAMLSlicePatch translates config.go's function of the same name:
    an empty slice yields no patch; otherwise one append-to-tail Add per
    element (the sentinel dash child of the path), handed to addOrSetYAMLPatch
    with the whole slice as the value to synthesize when the destination is
    missing. -/
def createAddYAMLSlicePatch (yamlBytes : Yaml) (yamlPath : String) (slice : List Yaml) : Except String Patch :=
  if slice.isEmpty then Except.ok []
  else
    let setPatch : Patch := slice.map (fun linter => ⟨OpType.add, mustParsePath (yamlPath ++ "/-"), linter⟩)
    addOrSetYAMLPatch yamlBytes yamlPath setPatch (Yaml.seq slice)

/-
Patch application.
Modelled from the spec: the applier is the external
yamlpatch/goccyyamlpatcher library, absent from this repository.  Spec
section 4.5: operations are applied sequentially; an Add on a sequence path
with the append sentinel inserts at the tail; an Add on a mapping path with a
key creates or inserts that key (overwriting in place when the key is already
present, as JSON-patch add does); a Replace overwrites an existing node's
value in place; a Replace against a missing path, or any step through a
missing or non-mapping parent, fails with an error carrying the offending
path segment.  Untouched entries keep their values and order.
-/

/-- replaceEntry overwrites in place the value of every entry with the given
    key. -/
def replaceEntry (es : List (String × Yaml)) (k : String) (v : Yaml) : List (String × Yaml) :=
  es.map (fun e => if e.1 == k then (e.1, v) else e)

/-- hasEntry tests whether a mapping has an entry with the given key. -/
def hasEntry (es : List (String × Yaml)) (k : String) : Bool :=
  es.any (fun e => e.1 == k)

/-- setEntry overwrites the entry with the given key in place when present and
    appends a new entry at the end otherwise. -/
def setEntry (es : List (String × Yaml)) (k : String) (v : Yaml) : List (String × Yaml) :=
  if hasEntry es k then replaceEntry es k v else es ++ [(k, v)]

/-- applyLeaf applies one operation at its final path segment.
    Modelled from the spec (section 4.5), see the block comment above. -/
def applyLeaf (doc : Yaml) (seg : String) (ty : OpType) (v : Yaml) : Except String Yaml :=
  if seg = "-" then
    match doc, ty with
    | Yaml.seq xs, OpType.add => Except.ok (Yaml.seq (xs ++ [v]))
    | _, _ => Except.error ("cannot append at path segment " ++ seg)
  else
    match doc with
    | Yaml.map es =>
      match ty with
      | OpType.add => Except.ok (Yaml.map (setEntry es seg v))
      | OpType.replace =>
        if hasEntry es seg then Except.ok (Yaml.map (replaceEntry es seg v))
        else Except.error ("replace target does not exist at path segment " ++ seg)
    | _ => Except.error ("cannot set key on non-mapping node at path segment " ++ seg)

/-- applyOpAt applies one operation along its path segments (root segment
    already stripped).  Modelled from the spec (section 4.5): descend through
    existing mapping entries, rebuilding each level in place; an operation at
    the root replaces the whole document. -/
def applyOpAt : List String → Yaml → OpType → Yaml → Except String Yaml
  | [], _, _, v => Except.ok v
  | [seg], doc, ty, v => applyLeaf doc seg ty v
  | seg :: seg2 :: rest, doc, ty, v =>
    match doc with
    | Yaml.map es =>
      match es.find? (fun e => e.1 == seg) with
      | none => Except.error ("path does not exist at segment " ++ seg)
      | some e =>
        match applyOpAt (seg2 :: rest) e.2 ty v with
        | Except.error msg => Except.error msg
        | Except.ok child => Except.ok (Yaml.map (replaceEntry es seg child))
    | _ => Except.error ("cannot traverse non-mapping node at segment " ++ seg)

/-- applyOperation applies one yamlpatch operation to a document; the leading
    empty root segment of the stored path is dropped first.
    Modelled from the spec (section 4.5). -/
def applyOperation (doc : Yaml) (op : Operation) : Except String Yaml :=
  applyOpAt (op.path.drop 1) doc op.type op.value

/-- applyPatch applies the operations of a patch in order, stopping at the
    first failure.  Modelled from the spec (section 4.5). -/
def applyPatch (doc : Yaml) : Patch → Except String Yaml
  | [] => Except.ok doc
  | op :: rest =>
    match applyOperation doc op with
    | Except.error e => Except.error e
    | Except.ok doc2 => applyPatch doc2 rest

/-
Patch application wrappers and the merger (config.go lines 95-191).
-/

/-- applyAddOrSetYAMLMapPatch translates config.go's function of the same
    name: an empty map means no patch to apply; otherwise create the patch
    (wrapping a failure with the path) and apply it (likewise). -/
def applyAddOrSetYAMLMapPatch (yamlBytes : Yaml) (yamlPath : String) (mapValue : MapSlice) : Except String Yaml :=
  if mapValue.isEmpty then Except.ok yamlBytes
  else
    match createSetYAMLMapValuePatch yamlBytes yamlPath mapValue with
    | Except.error e => Except.error ("failed to create patch for " ++ yamlPath ++ ": " ++ e)
    | Except.ok addOrSetValuePatch =>
      match applyPatch yamlBytes addOrSetValuePatch with
      | Except.error e => Except.error ("failed to apply patch for " ++ yamlPath ++ ": " ++ e)
      | Except.ok applied => Except.ok applied

/-- applyAddYAMLSlicePatch translates config.go's function of the same name:
    an empty slice means no patch to apply; otherwise create the patch
    (wrapping a failure with the path) and apply it (likewise). -/
def applyAddYAMLSlicePatch (yamlBytes : Yaml) (yamlPath : String) (slice : List Yaml) : Except String Yaml :=
  if slice.isEmpty then Except.ok yamlBytes
  else
    match createAddYAMLSlicePatch yamlBytes yamlPath slice with
    | Except.error e => Except.error ("failed to create patch for " ++ yamlPath ++ ": " ++ e)
    | Except.ok addSlicePatch =>
      match applyPatch yamlBytes addSlicePatch with
      | Except.error e => Except.error ("failed to apply patch for " ++ yamlPath ++ ": " ++ e)
      | Except.ok applied => Except.ok applied

/-- versionDefaultStep renders config.go lines 96-115 verbatim (the opening
    statements of MergePluginConfigWithConfig): if the root-level version node
    is absent, apply a single Add of the literal string two at the version
    path; check and apply failures are wrapped as in the Go source. -/
def versionDefaultStep (configBytes : Yaml) : Except String Yaml :=
  match checkNodeExists configBytes "/version" with
  | Except.error e => Except.error ("failed to check if version exists in config: " ++ e)
  | Except.ok true => Except.ok configBytes
  | Except.ok false =>
    match applyPatch configBytes [⟨OpType.add, mustParsePath "/version", Yaml.scalar "2"⟩] with
    | Except.error e => Except.error ("failed to add version to config: " ++ e)
    | Except.ok configBytes2 => Except.ok configBytes2

/-- MergePluginConfigWithConfig translates config.go's function of the same
    name: default the version, stop if the override configuration is nil, and
    otherwise run the six merge steps in order, each on the output of the
    previous one, stopping at the first error.  String list fields marshal
    elementwise to scalars and exclusion rules marshal through
    RulesConfig.toYaml. -/
def MergePluginConfigWithConfig (configBytes : Yaml) (cfg : Option PluginConfig) : Except String Yaml :=
  match versionDefaultStep configBytes with
  | Except.error e => Except.error e
  | Except.ok configBytes2 =>
    match cfg with
    | none => Except.ok configBytes2
    | some cfg =>
      match applyAddYAMLSlicePatch configBytes2 "/linters/enable" (cfg.linters.enable.map Yaml.scalar) with
      | Except.error e => Except.error e
      | Except.ok d1 =>
        match applyAddYAMLSlicePatch d1 "/linters/disable" (cfg.linters.disable.map Yaml.scalar) with
        | Except.error e => Except.error e
        | Except.ok d2 =>
          match applyAddOrSetYAMLMapPatch d2 "/linters/settings" cfg.linters.settings with
          | Except.error e => Except.error e
          | Except.ok d3 =>
            match applyAddYAMLSlicePatch d3 "/linters/exclusions/rules" (cfg.linters.exclusions.rules.map RulesConfig.toYaml) with
            | Except.error e => Except.error e
            | Except.ok d4 =>
              match applyAddYAMLSlicePatch d4 "/linters/exclusions/paths" (cfg.linters.exclusions.paths.map Yaml.scalar) with
              | Except.error e => Except.error e
              | Except.ok d5 =>
                match applyAddYAMLSlicePatch d5 "/linters/exclusions/paths-except" (cfg.linters.exclusions.pathsExcept.map Yaml.scalar) with
                | Except.error e => Except.error e
                | Except.ok d6 => Except.ok d6

/-
Helper definitions used by the statements of the theorems below.
-/

/-- lookupEntries is Yaml.lookupKey specialized to an entry list. -/
def lookupEntries (es : List (String × Yaml)) (k : String) : Option Yaml :=
  match es.find? (fun e => e.1 == k) with
  | none => none
  | some e => some e.2

/-- prefixAt pp idx is the pathSoFar string the walk of addOrSetYAMLPatch
    holds after processing index idx of the parsed path pp (with the Go
    reset-at-index-one rule). -/
def prefixAt (pp : List String) : Nat → String
  | 0 => "" ++ "/" ++ pp.getD 0 ""
  | j + 1 => (if j + 1 = 1 then "" else prefixAt pp j) ++ "/" ++ pp.getD (j + 1) ""

/-- pathShields path k holds when the stored operation path addresses a
    top-level child different from k (so applying it cannot touch the
    root-level entry k). -/
def pathShields (path : List String) (k : String) : Prop :=
  (path.drop 1).headD k ≠ k

instance (path : List String) (k : String) : Decidable (pathShields path k) := by
  unfold pathShields; infer_instance

/-
Basic lemmas about entry lists.
-/

theorem lookupKey_map (es : List (String × Yaml)) (k : String) :
    (Yaml.map es).lookupKey k = lookupEntries es k := rfl

theorem lookupEntries_cons (k1 : String) (v1 : Yaml) (es : List (String × Yaml)) (k : String) :
    lookupEntries ((k1, v1) :: es) k = if k1 = k then some v1 else lookupEntries es k := by
  by_cases h : k1 = k
  · simp [lookupEntries, List.find?, h]
  · have hb : (k1 == k) = false := by simp [h]
    simp [lookupEntries, List.find?, hb, h]

theorem hasEntry_cons (k1 : String) (v1 : Yaml) (es : List (String × Yaml)) (k : String) :
    hasEntry ((k1, v1) :: es) k = (k1 = k || hasEntry es k) := by
  by_cases h : k1 = k <;> simp [hasEntry, h]

theorem hasEntry_iff_lookup (es : List (String × Yaml)) (k : String) :
    hasEntry es k = true ↔ (lookupEntries es k).isSome = true := by
  induction es with
  | nil => simp [hasEntry, lookupEntries]
  | cons e es ih =>
    rcases e with ⟨k1, v1⟩
    rw [hasEntry_cons, lookupEntries_cons]
    by_cases h : k1 = k <;> simp [h, ih]

theorem lookupEntries_append (es fs : List (String × Yaml)) (k : String) :
    lookupEntries (es ++ fs) k =
      match lookupEntries es k with
      | some v => some v
      | none => lookupEntries fs k := by
  induction es with
  | nil => simp [lookupEntries]
  | cons e es ih =>
    rcases e with ⟨k1, v1⟩
    rw [List.cons_append, lookupEntries_cons, lookupEntries_cons]
    by_cases h : k1 = k <;> simp [h, ih]

theorem lookup_replaceEntry_self (es : List (String × Yaml)) (k : String) (v : Yaml)
    (h : hasEntry es k = true) :
    lookupEntries (replaceEntry es k v) k = some v := by
  induction es with
  | nil => simp [hasEntry] at h
  | cons e es ih =>
    rcases e with ⟨k1, v1⟩
    rw [hasEntry_cons] at h
    by_cases hk : k1 = k
    · subst hk
      simp [replaceEntry, lookupEntries_cons]
    · simp [hk] at h
      have := ih h
      simpa [replaceEntry, lookupEntries_cons, hk] using this

theorem lookup_replaceEntry_ne (es : List (String × Yaml)) (k k2 : String) (v : Yaml)
    (h : k2 ≠ k) :
    lookupEntries (replaceEntry es k v) k2 = lookupEntries es k2 := by
  induction es with
  | nil => simp [replaceEntry, lookupEntries]
  | cons e es ih =>
    rcases e with ⟨k1, v1⟩
    have hrec : replaceEntry ((k1, v1) :: es) k v
        = (if k1 = k then (k1, v) else (k1, v1)) :: replaceEntry es k v := by
      by_cases hk : k1 = k <;> simp [replaceEntry, hk]
    rw [hrec]
    by_cases hk : k1 = k
    · have hk2 : k1 ≠ k2 := fun hc => h (hc ▸ hk)
      rw [if_pos hk, lookupEntries_cons, lookupEntries_cons, if_neg hk2, if_neg hk2, ih]
    · by_cases hk2 : k1 = k2
      · rw [if_neg hk, lookupEntries_cons, lookupEntries_cons, if_pos hk2, if_pos hk2]
      · rw [if_neg hk, lookupEntries_cons, lookupEntries_cons, if_neg hk2, if_neg hk2, ih]

theorem lookup_setEntry_self (es : List (String × Yaml)) (k : String) (v : Yaml) :
    lookupEntries (setEntry es k v) k = some v := by
  unfold setEntry
  by_cases h : hasEntry es k
  · simp [h, lookup_replaceEntry_self es k v h]
  · have hl : lookupEntries es k = none := by
      rcases hval : lookupEntries es k with _ | w
      · rfl
      · exact absurd ((hasEntry_iff_lookup es k).mpr (by simp [hval])) h
    simp [h, lookupEntries_append, hl, lookupEntries_cons]

theorem lookup_setEntry_ne (es : List (String × Yaml)) (k k2 : String) (v : Yaml)
    (h : k2 ≠ k) :
    lookupEntries (setEntry es k v) k2 = lookupEntries es k2 := by
  unfold setEntry
  by_cases hh : hasEntry es k
  · simp [hh, lookup_replaceEntry_ne es k k2 v h]
  · have hne : k ≠ k2 := fun hc => h (hc ▸ rfl)
    rw [if_neg hh, lookupEntries_append]
    rcases hv : lookupEntries es k2 with _ | w
    · simp [lookupEntries_cons, hne, lookupEntries]
    · simp

theorem lookup_setEntry_isSome_mono (es : List (String × Yaml)) (k k2 : String) (v : Yaml)
    (h : (lookupEntries es k2).isSome = true) :
    (lookupEntries (setEntry es k v) k2).isSome = true := by
  by_cases hk : k2 = k
  · subst hk; simp [lookup_setEntry_self]
  · rw [lookup_setEntry_ne es k k2 v hk]; exact h

/-
Lemmas about readNode, checkNodeExists and the patch applier.
-/

theorem readNode_cons (doc : Yaml) (s : String) (l : List String) :
    readNode doc (s :: l) =
      match doc.lookupKey s with
      | none => none
      | some child => readNode child l := rfl

theorem readNode_append (s1 s2 : List String) :
    ∀ doc : Yaml, readNode doc (s1 ++ s2) =
      match readNode doc s1 with
      | none => none
      | some d => readNode d s2 := by
  induction s1 with
  | nil => intro doc; simp [readNode]
  | cons s rest ih =>
    intro doc
    rw [List.cons_append, readNode_cons, readNode_cons]
    rcases hl : doc.lookupKey s with _ | child
    · rfl
    · exact ih child

theorem readNode_nestValue (segs : List String) (v : Yaml) :
    readNode (nestValue segs v) segs = some v := by
  induction segs with
  | nil => rfl
  | cons s rest ih =>
    rw [readNode_cons]
    have hlk : (nestValue (s :: rest) v).lookupKey s = some (nestValue rest v) := by
      simp [nestValue, Yaml.lookupKey, List.find?]
    rw [hlk]
    exact ih

theorem checkNodeExists_root (doc : Yaml) : checkNodeExists doc "/" = Except.ok true := rfl

theorem checkNodeExists_eval (doc : Yaml) (p : String) (segs : List String)
    (h : parseGoccyPath (yamlPatchPathToGoccyPathString p) = some segs) :
    checkNodeExists doc p = Except.ok ((readNode doc segs).isSome) := by
  unfold checkNodeExists
  rw [h]
  show (match readNode doc segs with
        | none => Except.ok false
        | some _ => Except.ok true) = Except.ok ((readNode doc segs).isSome)
  rcases hr : readNode doc segs with _ | w
  · rfl
  · rfl

theorem checkNodeExists_eval_err (doc : Yaml) (p : String)
    (h : parseGoccyPath (yamlPatchPathToGoccyPathString p) = none) :
    checkNodeExists doc p = Except.error ("failed to parse yamlPath " ++ p) := by
  unfold checkNodeExists
  rw [h]

theorem applyOpAt_cons_map (s : String) (l : List String) (es : List (String × Yaml))
    (ty : OpType) (v : Yaml) (h : l ≠ []) :
    applyOpAt (s :: l) (Yaml.map es) ty v =
      match es.find? (fun e => e.1 == s) with
      | none => Except.error ("path does not exist at segment " ++ s)
      | some e =>
        match applyOpAt l e.2 ty v with
        | Except.error msg => Except.error msg
        | Except.ok child => Except.ok (Yaml.map (replaceEntry es s child)) := by
  rcases l with _ | ⟨a, l⟩
  · exact absurd rfl h
  · rfl

theorem applyOpAt_under (tsegs : List String) :
    ∀ (doc sub : Yaml) (fseg : String) (ty : OpType) (v sub2 : Yaml),
    readNode doc tsegs = some sub →
    applyLeaf sub fseg ty v = Except.ok sub2 →
    ∃ doc2, applyOpAt (tsegs ++ [fseg]) doc ty v = Except.ok doc2 ∧
      readNode doc2 tsegs = some sub2 := by
  induction tsegs with
  | nil =>
    intro doc sub fseg ty v sub2 hread hleaf
    have hd : doc = sub := by simpa [readNode] using hread
    subst hd
    exact ⟨sub2, by simpa [applyOpAt] using hleaf, by simp [readNode]⟩
  | cons s rest ih =>
    intro doc sub fseg ty v sub2 hread hleaf
    rw [readNode_cons] at hread
    rcases hl : doc.lookupKey s with _ | child
    · rw [hl] at hread; exact absurd hread (by simp)
    · rw [hl] at hread
      have hread2 : readNode child rest = some sub := hread
      rcases doc with _ | _ | _ | es
      · exact absurd hl (by simp [Yaml.lookupKey])
      · exact absurd hl (by simp [Yaml.lookupKey])
      · exact absurd hl (by simp [Yaml.lookupKey])
      · rcases ih child sub fseg ty v sub2 hread2 hleaf with ⟨child2, happ, hreadc⟩
        have hfind : es.find? (fun e => e.1 == s) = some (s, child) := by
          have hl2 : (match es.find? (fun e => e.1 == s) with
              | none => none
              | some e => some e.2) = some child := hl
          rcases hf : es.find? (fun e => e.1 == s) with _ | e
          · rw [hf] at hl2; exact absurd hl2 (by simp)
          · rw [hf] at hl2
            rcases e with ⟨ek, ev⟩
            have hv : ev = child := by simpa using hl2
            have hk : ek = s := by simpa using List.find?_some hf
            rw [hf, hk, hv]
        refine ⟨Yaml.map (replaceEntry es s child2), ?_, ?_⟩
        · rw [List.cons_append, applyOpAt_cons_map s (rest ++ [fseg]) es ty v (by simp), hfind]
          show (match applyOpAt (rest ++ [fseg]) child ty v with
                | Except.error msg => Except.error msg
                | Except.ok c => Except.ok (Yaml.map (replaceEntry es s c))) = _
          rw [happ]
        · rw [readNode_cons]
          have hlook : (Yaml.map (replaceEntry es s child2)).lookupKey s = some child2 := by
            rw [lookupKey_map]
            apply lookup_replaceEntry_self
            rw [hasEntry_iff_lookup]
            have hx : lookupEntries es s = some child := by
              rw [← lookupKey_map]; exact hl
            simp [hx]
          rw [hlook]
          exact hreadc

theorem applyLeaf_lookupKey_ne (doc doc2 : Yaml) (s : String) (ty : OpType) (v : Yaml)
    (k : String) (hne : s ≠ k)
    (hleaf : applyLeaf doc s ty v = Except.ok doc2) :
    doc2.lookupKey k = doc.lookupKey k := by
  unfold applyLeaf at hleaf
  by_cases hdash : s = "-"
  · rw [if_pos hdash] at hleaf
    rcases doc with _ | x | xs | es
    · rcases ty with _ | _ <;> simp at hleaf
    · rcases ty with _ | _ <;> simp at hleaf
    · rcases ty with _ | _
      · have hd : Yaml.seq (xs ++ [v]) = doc2 := by simpa using hleaf
        rw [← hd]
        simp [Yaml.lookupKey]
      · simp at hleaf
    · rcases ty with _ | _ <;> simp at hleaf
  · rw [if_neg hdash] at hleaf
    rcases doc with _ | x | xs | es
    · simp at hleaf
    · simp at hleaf
    · simp at hleaf
    · rcases ty with _ | _
      · have hd : Yaml.map (setEntry es s v) = doc2 := by simpa using hleaf
        rw [← hd, lookupKey_map, lookupKey_map]
        exact lookup_setEntry_ne es s k v (fun hc => hne (hc ▸ rfl))
      · rcases hh : hasEntry es s with _ | _
        · simp [hh] at hleaf
        · simp only [hh, if_pos] at hleaf
          have hd : Yaml.map (replaceEntry es s v) = doc2 := by simpa using hleaf
          rw [← hd, lookupKey_map, lookupKey_map]
          exact lookup_replaceEntry_ne es s k v (fun hc => hne (hc ▸ rfl))

theorem applyOpAt_lookupKey_ne (segs : List String) (s : String) (rest : List String)
    (doc doc2 : Yaml) (ty : OpType) (v : Yaml) (k : String)
    (hsegs : segs = s :: rest) (hne : s ≠ k)
    (happ : applyOpAt segs doc ty v = Except.ok doc2) :
    doc2.lookupKey k = doc.lookupKey k := by
  subst hsegs
  rcases rest with _ | ⟨r, rs⟩
  · exact applyLeaf_lookupKey_ne doc doc2 s ty v k hne happ
  · rcases doc with _ | x | xs | es
    · simp [applyOpAt] at happ
    · simp [applyOpAt] at happ
    · simp [applyOpAt] at happ
    · rw [applyOpAt_cons_map s (r :: rs) es ty v (by simp)] at happ
      rcases hf : es.find? (fun e => e.1 == s) with _ | e
      · rw [hf] at happ; simp at happ
      · rw [hf] at happ
        have happ2 : (match applyOpAt (r :: rs) e.2 ty v with
            | Except.error msg => Except.error msg
            | Except.ok child => Except.ok (Yaml.map (replaceEntry es s child))) =
            Except.ok doc2 := happ
        rcases ha : applyOpAt (r :: rs) e.2 ty v with msg | child
        · rw [ha] at happ2; simp at happ2
        · rw [ha] at happ2
          have hd : Yaml.map (replaceEntry es s child) = doc2 := by simpa using happ2
          rw [← hd, lookupKey_map, lookupKey_map]
          exact lookup_replaceEntry_ne es s k child (fun hc => hne (hc ▸ rfl))

theorem applyPatch_lookupKey_preserved (k : String) :
    ∀ (patch : Patch) (doc doc2 : Yaml),
    (∀ op ∈ patch, pathShields op.path k) →
    applyPatch doc patch = Except.ok doc2 →
    doc2.lookupKey k = doc.lookupKey k := by
  intro patch
  induction patch with
  | nil =>
    intro doc doc2 _ happ
    have hd : doc = doc2 := by simpa [applyPatch] using happ
    rw [hd]
  | cons op rest ih =>
    intro doc doc2 hsh happ
    unfold applyPatch at happ
    rcases ho : applyOperation doc op with msg | d1
    · rw [ho] at happ; simp at happ
    · rw [ho] at happ
      have h1 : d1.lookupKey k = doc.lookupKey k := by
        have hs := hsh op (by simp)
        unfold pathShields at hs
        rcases hp : op.path.drop 1 with _ | ⟨s, ss⟩
        · rw [hp] at hs; simp at hs
        · rw [hp] at hs
          have hs2 : s ≠ k := by simpa using hs
          have ho2 : applyOpAt (op.path.drop 1) doc op.type op.value = Except.ok d1 := ho
          exact applyOpAt_lookupKey_ne (op.path.drop 1) s ss doc d1 op.type op.value k hp hs2 ho2
      have h2 : doc2.lookupKey k = d1.lookupKey k :=
        ih d1 doc2 (fun op2 hm => hsh op2 (by simp [hm])) happ
      rw [h2, h1]

/-
Lemmas about the prefix walk of addOrSetYAMLPatch.
-/

theorem drop_cons_getD (pp : List String) :
    ∀ (idx : Nat) (part : String) (rest : List String),
    pp.drop idx = part :: rest → pp.getD idx "" = part := by
  induction pp with
  | nil =>
    intro idx part rest h
    rw [List.drop_nil] at h
    cases h
  | cons a l ih =>
    intro idx part rest h
    cases idx with
    | zero =>
      rw [List.drop_zero] at h
      rw [List.getD_cons_zero]
      exact (List.cons.injEq a l part rest ▸ h).1
    | succ n =>
      rw [List.drop_succ_cons] at h
      rw [List.getD_cons_succ]
      exact ih n part rest h

theorem drop_cons_drop_succ (pp : List String) :
    ∀ (idx : Nat) (part : String) (rest : List String),
    pp.drop idx = part :: rest → pp.drop (idx + 1) = rest := by
  induction pp with
  | nil =>
    intro idx part rest h
    rw [List.drop_nil] at h
    cases h
  | cons a l ih =>
    intro idx part rest h
    cases idx with
    | zero =>
      rw [List.drop_zero] at h
      have := (List.cons.injEq a l part rest ▸ h).2
      simpa [List.drop_succ_cons] using this
    | succ n =>
      rw [List.drop_succ_cons] at h
      rw [List.drop_succ_cons]
      exact ih n part rest h

theorem drop_cons_lt_length (pp : List String) :
    ∀ (idx : Nat) (part : String) (rest : List String),
    pp.drop idx = part :: rest → idx < pp.length := by
  intro idx part rest h
  by_contra hle
  push_neg at hle
  rw [List.drop_eq_nil_of_le hle] at h
  cases h

theorem walkFirstMissing_spec (doc : Yaml) (pp : List String) :
    ∀ (parts : List String) (idx : Nat) (p : String) (i : Nat),
    parts = pp.drop idx →
    walkFirstMissing doc parts idx (if idx = 0 then "" else prefixAt pp (idx - 1)) =
      Except.ok (some (p, i)) →
    idx ≤ i ∧ i < pp.length ∧ p = prefixAt pp i ∧
      checkNodeExists doc (prefixAt pp i) = Except.ok false ∧
      ∀ j, idx ≤ j → j < i → checkNodeExists doc (prefixAt pp j) = Except.ok true := by
  intro parts
  induction parts with
  | nil =>
    intro idx p i _ hw
    simp [walkFirstMissing] at hw
  | cons part rest ih =>
    intro idx p i hparts hw
    simp only [walkFirstMissing] at hw
    have hps : (if idx = 1 then ""
        else (if idx = 0 then "" else prefixAt pp (idx - 1))) ++ "/" ++ part
        = prefixAt pp idx := by
      have hget : pp.getD idx "" = part := drop_cons_getD pp idx part rest hparts.symm
      have hget2 : pp[idx]?.getD "" = part := by
        rw [← List.getD_eq_getElem?_getD]; exact hget
      cases idx with
      | zero => simp [prefixAt, hget2]
      | succ n =>
        cases n with
        | zero => simp [prefixAt, hget2]
        | succ m => simp [prefixAt, hget2]
    rw [hps] at hw
    rcases hc : checkNodeExists doc (prefixAt pp idx) with msg | b
    · rw [hc] at hw; simp at hw
    · rcases b with _ | _
      · rw [hc] at hw
        have hpi : p = prefixAt pp idx ∧ i = idx := by
          have := hw
          simp at this
          exact ⟨this.1.symm, this.2.symm⟩
        rcases hpi with ⟨hp, hi⟩
        subst hp
        subst hi
        refine ⟨Nat.le_refl i, drop_cons_lt_length pp i part rest hparts.symm, rfl, hc, ?_⟩
        intro j hj1 hj2
        omega
      · rw [hc] at hw
        have hacc : (if idx + 1 = 0 then "" else prefixAt pp (idx + 1 - 1)) = prefixAt pp idx := by
          simp
        have hrest : rest = pp.drop (idx + 1) :=
          (drop_cons_drop_succ pp idx part rest hparts.symm).symm
        have hind := ih (idx + 1) p i hrest (by rw [hacc]; exact hw)
        rcases hind with ⟨h1, h2, h3, h4, h5⟩
        refine ⟨by omega, h2, h3, h4, ?_⟩
        intro j hj1 hj2
        by_cases hj : j = idx
        · rw [hj]; exact hc
        · exact h5 j (by omega) hj2

theorem createObjectsToAddForPath_getD (yamlPath : String) (v : Yaml) (i : Nat)
    (h : i < (splitOnChar yamlPath '/').length) :
    (createObjectsToAddForPath yamlPath v).getD i Yaml.null =
      nestValue ((splitOnChar yamlPath '/').drop (i + 1)) v := by
  unfold createObjectsToAddForPath
  rw [List.getD_eq_getElem?_getD, List.getElem?_map]
  simp [List.getElem?_range, h]

/-- C1: whenever the destination node of addOrSetYAMLPatch does not exist, the
    returned patch is exactly one Add, located at the first prefix of the path
    whose node does not exist (every shorter prefix exists), and its value is
    the leaf value wrapped, from the leaf outward, in single-entry mappings
    keyed by the path segments deeper than that prefix; in particular no
    per-key or per-element operation of the given set patch is emitted. -/
theorem c1_missing_target_single_add (doc : Yaml) (yamlPath : String) (pp : List String)
    (setYAMLPatch : Patch) (v : Yaml) (patch : Patch)
    (hpp : parsePath yamlPath = some pp)
    (hmiss : checkNodeExists doc yamlPath = Except.ok false)
    (hok : addOrSetYAMLPatch doc yamlPath setYAMLPatch v = Except.ok patch) :
    ∃ i, i < pp.length ∧
      patch = [⟨OpType.add, mustParsePath (prefixAt pp i), nestValue (pp.drop (i + 1)) v⟩] ∧
      checkNodeExists doc (prefixAt pp i) = Except.ok false ∧
      ∀ j, j < i → checkNodeExists doc (prefixAt pp j) = Except.ok true := by
  by_cases hlen : pp.length ≤ 1
  · exfalso
    have : addOrSetYAMLPatch doc yamlPath setYAMLPatch v =
        Except.error ("YAML path must have at least one segment after the root, but was " ++ yamlPath) := by
      unfold addOrSetYAMLPatch
      rw [hpp]
      simp [hlen]
    rw [this] at hok
    cases hok
  · have hsplit : splitOnChar yamlPath '/' = pp := by
      unfold parsePath at hpp
      by_cases hroot : yamlPath = "/"
      · rw [if_pos hroot] at hpp
        have hpp2 : pp = [""] := by
          have := hpp
          simp at this
          exact this.symm
        rw [hpp2] at hlen
        simp at hlen
      · rw [if_neg hroot] at hpp
        by_cases hsw : startsWithChar yamlPath '/' = true
        · rw [if_pos hsw] at hpp
          simpa using hpp
        · rw [if_neg hsw] at hpp
          cases hpp
    unfold addOrSetYAMLPatch at hok
    rw [hpp] at hok
    simp only [hlen, hmiss, if_false] at hok
    have hok2 : (match walkFirstMissing doc pp 0 "" with
        | Except.error e => Except.error e
        | Except.ok none => Except.error "index out of range"
        | Except.ok (some (pathSoFar, furthestExistingIdx)) =>
          Except.ok [⟨OpType.add, mustParsePath pathSoFar,
            (createObjectsToAddForPath yamlPath v).getD furthestExistingIdx Yaml.null⟩]) =
        Except.ok patch := hok
    rcases hwk : walkFirstMissing doc pp 0 "" with msg | r
    · rw [hwk] at hok2; cases hok2
    · rcases r with _ | ⟨pfx, i⟩
      · rw [hwk] at hok2; cases hok2
      · rw [hwk] at hok2
        have hpatch : patch = [⟨OpType.add, mustParsePath pfx,
            (createObjectsToAddForPath yamlPath v).getD i Yaml.null⟩] := by
          have := hok2
          simp at this
          rw [List.getD_eq_getElem?_getD]
          exact this.symm
        have hsp : walkFirstMissing doc pp 0
            (if (0:Nat) = 0 then "" else prefixAt pp (0 - 1)) = Except.ok (some (pfx, i)) := by
          simpa using hwk
        have hspec := walkFirstMissing_spec doc pp pp 0 pfx i (by rw [List.drop_zero]) hsp
        rcases hspec with ⟨_, hilen, hpfx, hfalse, hprev⟩
        refine ⟨i, hilen, ?_, hfalse, fun j hj => hprev j (Nat.zero_le j) hj⟩
        rw [hpatch, hpfx]
        rw [createObjectsToAddForPath_getD yamlPath v i (by rw [hsplit]; exact hilen), hsplit]

theorem c1_missing_target_single_add_witness :
    (parsePath "/linters/settings" = some ["", "linters", "settings"] ∧
     checkNodeExists (Yaml.map [("linters", Yaml.map [])]) "/linters/settings" = Except.ok false ∧
     addOrSetYAMLPatch (Yaml.map [("linters", Yaml.map [])]) "/linters/settings"
       [⟨OpType.replace, ["", "linters", "settings"], Yaml.null⟩] (Yaml.scalar "x") =
       Except.ok [⟨OpType.add, ["", "linters", "settings"], Yaml.scalar "x"⟩]) ∧
    ∃ i, i < (["", "linters", "settings"] : List String).length ∧
      ([⟨OpType.add, ["", "linters", "settings"], Yaml.scalar "x"⟩] : Patch) =
        [⟨OpType.add, mustParsePath (prefixAt ["", "linters", "settings"] i),
          nestValue ((["", "linters", "settings"] : List String).drop (i + 1)) (Yaml.scalar "x")⟩] ∧
      checkNodeExists (Yaml.map [("linters", Yaml.map [])])
        (prefixAt ["", "linters", "settings"] i) = Except.ok false ∧
      ∀ j, j < i → checkNodeExists (Yaml.map [("linters", Yaml.map [])])
        (prefixAt ["", "linters", "settings"] j) = Except.ok true :=
  ⟨⟨rfl, rfl, rfl⟩,
   c1_missing_target_single_add (Yaml.map [("linters", Yaml.map [])]) "/linters/settings"
     ["", "linters", "settings"]
     [⟨OpType.replace, ["", "linters", "settings"], Yaml.null⟩] (Yaml.scalar "x")
     [⟨OpType.add, ["", "linters", "settings"], Yaml.scalar "x"⟩] rfl rfl rfl⟩

/-- C9: for every document and path whose converted form parses, the node
    existence checker returns a boolean and never an error: a path whose
    parent chain is absent yields false (not an error), and a present null
    node counts as existing; an error is returned exactly when the converted
    path string is malformed. -/
theorem c9_checker_totality (doc : Yaml) (p : String) :
    (∀ segs, parseGoccyPath (yamlPatchPathToGoccyPathString p) = some segs →
      checkNodeExists doc p = Except.ok ((readNode doc segs).isSome) ∧
      (readNode doc segs = none → checkNodeExists doc p = Except.ok false) ∧
      (readNode doc segs = some Yaml.null → checkNodeExists doc p = Except.ok true)) ∧
    (parseGoccyPath (yamlPatchPathToGoccyPathString p) = none →
      checkNodeExists doc p = Except.error ("failed to parse yamlPath " ++ p)) := by
  constructor
  · intro segs h
    refine ⟨checkNodeExists_eval doc p segs h, ?_, ?_⟩
    · intro hn
      rw [checkNodeExists_eval doc p segs h, hn]
      rfl
    · intro hn
      rw [checkNodeExists_eval doc p segs h, hn]
      rfl
  · exact checkNodeExists_eval_err doc p

theorem c9_checker_totality_witness :
    checkNodeExists (Yaml.map [("a", Yaml.null)]) "/a/b/c" = Except.ok false ∧
    checkNodeExists (Yaml.map [("a", Yaml.null)]) "/a" = Except.ok true ∧
    checkNodeExists (Yaml.map [("a", Yaml.null)]) "/a..b" =
      Except.error ("failed to parse yamlPath " ++ "/a..b") :=
  ⟨((c9_checker_totality (Yaml.map [("a", Yaml.null)]) "/a/b/c").1 ["a", "b", "c"] rfl).2.1 rfl,
   ((c9_checker_totality (Yaml.map [("a", Yaml.null)]) "/a").1 ["a"] rfl).2.2 rfl,
   (c9_checker_totality (Yaml.map [("a", Yaml.null)]) "/a..b").2 rfl⟩

/-- C10: the existence check factors through the converted path string
    (slashes replaced by dots, dollar prepended): two paths with equal
    converted strings yield the same existence result; consequently a key
    segment containing a dot is read as nested segments, as the concrete
    conjuncts show (a slash path and a dotted path collapse to the same
    converted string, the dotted key itself is not found, and the nested
    reading is). -/
theorem c10_conversion_collapse (doc : Yaml) :
    (∀ p1 p2 : String, yamlPatchPathToGoccyPathString p1 = yamlPatchPathToGoccyPathString p2 →
      (checkNodeExists doc p1).toOption = (checkNodeExists doc p2).toOption) ∧
    yamlPatchPathToGoccyPathString "/a/b" = yamlPatchPathToGoccyPathString "/a.b" ∧
    checkNodeExists (Yaml.map [("a.b", Yaml.null)]) "/a.b" = Except.ok false ∧
    checkNodeExists (Yaml.map [("a", Yaml.map [("b", Yaml.null)])]) "/a.b" = Except.ok true := by
  refine ⟨?_, rfl, rfl, rfl⟩
  intro p1 p2 h
  unfold checkNodeExists
  rw [h]
  rcases parseGoccyPath (yamlPatchPathToGoccyPathString p2) with _ | segs
  · rfl
  · rfl

theorem c10_conversion_collapse_witness :
    (checkNodeExists (Yaml.map [("a", Yaml.map [("b", Yaml.null)])]) "/a/b").toOption =
      (checkNodeExists (Yaml.map [("a", Yaml.map [("b", Yaml.null)])]) "/a.b").toOption :=
  (c10_conversion_collapse (Yaml.map [("a", Yaml.map [("b", Yaml.null)])])).1 "/a/b" "/a.b" rfl

/-
List-append semantics (C3).
-/

theorem applyPatch_append_seq (gsegs : List String) (ppath : List String)
    (hp : ppath.drop 1 = gsegs ++ ["-"]) :
    ∀ (slice : List Yaml) (doc : Yaml) (xs : List Yaml),
    readNode doc gsegs = some (Yaml.seq xs) →
    ∃ doc2, applyPatch doc (slice.map (fun linter => ⟨OpType.add, ppath, linter⟩)) = Except.ok doc2 ∧
      readNode doc2 gsegs = some (Yaml.seq (xs ++ slice)) := by
  intro slice
  induction slice with
  | nil =>
    intro doc xs h
    exact ⟨doc, rfl, by simpa using h⟩
  | cons v vs ih =>
    intro doc xs h
    have hleaf : applyLeaf (Yaml.seq xs) "-" OpType.add v = Except.ok (Yaml.seq (xs ++ [v])) := by
      simp [applyLeaf]
    rcases applyOpAt_under gsegs doc (Yaml.seq xs) "-" OpType.add v (Yaml.seq (xs ++ [v])) h hleaf
      with ⟨d1, happ, hread⟩
    rcases ih d1 (xs ++ [v]) hread with ⟨doc2, happ2, hread2⟩
    refine ⟨doc2, ?_, by simpa [List.append_assoc] using hread2⟩
    have ho : applyOperation doc ⟨OpType.add, ppath, v⟩ = Except.ok d1 := by
      show applyOpAt (ppath.drop 1) doc OpType.add v = Except.ok d1
      rw [hp]
      exact happ
    show (match applyOperation doc ⟨OpType.add, ppath, v⟩ with
          | Except.error e => Except.error e
          | Except.ok d => applyPatch d (vs.map (fun linter => ⟨OpType.add, ppath, linter⟩))) =
        Except.ok doc2
    rw [ho]
    exact happ2

/-- C3: appending a slice at an existing list path is strictly additive and
    order-preserving: the empty slice changes nothing; a non-empty slice
    produces one tail-append Add per element in slice order; and applying the
    patch leaves the target holding exactly the base elements in order
    followed by the override elements in order. -/
theorem c3_slice_append (doc : Yaml) (yamlPath : String) (gsegs pp : List String)
    (xs slice : List Yaml)
    (hconv : parseGoccyPath (yamlPatchPathToGoccyPathString yamlPath) = some gsegs)
    (htex : readNode doc gsegs = some (Yaml.seq xs))
    (hpp : parsePath yamlPath = some pp)
    (hlen : 1 < pp.length)
    (hdash : (mustParsePath (yamlPath ++ "/-")).drop 1 = gsegs ++ ["-"]) :
    applyAddYAMLSlicePatch doc yamlPath ([] : List Yaml) = Except.ok doc ∧
    (slice ≠ [] → createAddYAMLSlicePatch doc yamlPath slice =
      Except.ok (slice.map (fun linter => ⟨OpType.add, mustParsePath (yamlPath ++ "/-"), linter⟩))) ∧
    ∃ doc2, applyAddYAMLSlicePatch doc yamlPath slice = Except.ok doc2 ∧
      readNode doc2 gsegs = some (Yaml.seq (xs ++ slice)) := by
  have hex : checkNodeExists doc yamlPath = Except.ok true := by
    rw [checkNodeExists_eval doc yamlPath gsegs hconv, htex]
    rfl
  have hcreate : slice ≠ [] → createAddYAMLSlicePatch doc yamlPath slice =
      Except.ok (slice.map (fun linter => ⟨OpType.add, mustParsePath (yamlPath ++ "/-"), linter⟩)) := by
    intro hne
    unfold createAddYAMLSlicePatch
    rw [if_neg (by simpa using hne)]
    unfold addOrSetYAMLPatch
    rw [hpp]
    have hgt : ¬ pp.length ≤ 1 := by omega
    simp [hgt, hex]
  refine ⟨rfl, hcreate, ?_⟩
  rcases hsl : slice with _ | ⟨v, vs⟩
  · exact ⟨doc, rfl, by simpa using htex⟩
  · rw [← hsl]
    have hne : slice ≠ [] := by rw [hsl]; simp
    unfold applyAddYAMLSlicePatch
    rw [if_neg (by simpa using hne), hcreate hne]
    rcases applyPatch_append_seq gsegs (mustParsePath (yamlPath ++ "/-")) hdash slice doc xs htex
      with ⟨doc2, happ, hread⟩
    refine ⟨doc2, ?_, hread⟩
    show (match applyPatch doc
            (slice.map (fun linter => ⟨OpType.add, mustParsePath (yamlPath ++ "/-"), linter⟩)) with
          | Except.error e => Except.error ("failed to apply patch for " ++ yamlPath ++ ": " ++ e)
          | Except.ok applied => Except.ok applied) = Except.ok doc2
    rw [happ]

theorem c3_slice_append_witness :
    (parseGoccyPath (yamlPatchPathToGoccyPathString "/linters/enable") = some ["linters", "enable"] ∧
     readNode (Yaml.map [("linters", Yaml.map [("enable", Yaml.seq [Yaml.scalar "a"])])])
       ["linters", "enable"] = some (Yaml.seq [Yaml.scalar "a"]) ∧
     parsePath "/linters/enable" = some ["", "linters", "enable"] ∧
     1 < (["", "linters", "enable"] : List String).length ∧
     (mustParsePath ("/linters/enable" ++ "/-")).drop 1 = ["linters", "enable"] ++ ["-"]) ∧
    (applyAddYAMLSlicePatch (Yaml.map [("linters", Yaml.map [("enable", Yaml.seq [Yaml.scalar "a"])])])
        "/linters/enable" ([] : List Yaml) =
      Except.ok (Yaml.map [("linters", Yaml.map [("enable", Yaml.seq [Yaml.scalar "a"])])]) ∧
     ([Yaml.scalar "b", Yaml.scalar "c"] ≠ ([] : List Yaml) →
       createAddYAMLSlicePatch (Yaml.map [("linters", Yaml.map [("enable", Yaml.seq [Yaml.scalar "a"])])])
         "/linters/enable" [Yaml.scalar "b", Yaml.scalar "c"] =
       Except.ok ([Yaml.scalar "b", Yaml.scalar "c"].map
         (fun linter => ⟨OpType.add, mustParsePath ("/linters/enable" ++ "/-"), linter⟩))) ∧
     ∃ doc2, applyAddYAMLSlicePatch (Yaml.map [("linters", Yaml.map [("enable", Yaml.seq [Yaml.scalar "a"])])])
         "/linters/enable" [Yaml.scalar "b", Yaml.scalar "c"] = Except.ok doc2 ∧
       readNode doc2 ["linters", "enable"] =
         some (Yaml.seq ([Yaml.scalar "a"] ++ [Yaml.scalar "b", Yaml.scalar "c"]))) :=
  ⟨⟨rfl, rfl, rfl, by decide, rfl⟩,
   c3_slice_append (Yaml.map [("linters", Yaml.map [("enable", Yaml.seq [Yaml.scalar "a"])])])
     "/linters/enable" ["linters", "enable"] ["", "linters", "enable"]
     [Yaml.scalar "a"] [Yaml.scalar "b", Yaml.scalar "c"] rfl rfl rfl (by decide) rfl⟩

/-
Map-merge semantics (C2).
-/

theorem readNode_snoc_key (doc : Yaml) (gsegs : List String) (es : List (String × Yaml)) (k : String)
    (h : readNode doc gsegs = some (Yaml.map es)) :
    readNode doc (gsegs ++ [k]) = lookupEntries es k := by
  rw [readNode_append, h]
  show readNode (Yaml.map es) [k] = lookupEntries es k
  rw [readNode_cons, lookupKey_map]
  rcases lookupEntries es k with _ | w
  · rfl
  · rfl

theorem applyPatch_set_map (gsegs : List String) (yamlPath : String) (doc0 : Yaml) :
    ∀ (items : MapSlice) (doc : Yaml) (es : List (String × Yaml)),
    readNode doc gsegs = some (Yaml.map es) →
    (∀ item ∈ items, item.key.text ≠ "-" ∧
      (mustParsePath (yamlPath ++ "/" ++ item.key.text)).drop 1 = gsegs ++ [item.key.text] ∧
      ((readNode doc0 (gsegs ++ [item.key.text])).isSome = true →
        (lookupEntries es item.key.text).isSome = true)) →
    ∃ doc2, applyPatch doc (items.map (fun item =>
        ⟨if (readNode doc0 (gsegs ++ [item.key.text])).isSome then OpType.replace else OpType.add,
         mustParsePath (yamlPath ++ "/" ++ item.key.text), item.value⟩)) = Except.ok doc2 ∧
      readNode doc2 gsegs =
        some (Yaml.map (items.foldl (fun acc item => setEntry acc item.key.text item.value) es)) := by
  intro items
  induction items with
  | nil =>
    intro doc es h _
    exact ⟨doc, rfl, by simpa using h⟩
  | cons item rest ih =>
    intro doc es h hyp
    obtain ⟨hdash, hdrop, himpl⟩ := hyp item (by simp)
    have hleaf : applyLeaf (Yaml.map es) item.key.text
        (if (readNode doc0 (gsegs ++ [item.key.text])).isSome then OpType.replace else OpType.add)
        item.value = Except.ok (Yaml.map (setEntry es item.key.text item.value)) := by
      rcases hb : (readNode doc0 (gsegs ++ [item.key.text])).isSome with _ | _
      · simp [applyLeaf, hdash, setEntry]
      · have hhas : hasEntry es item.key.text = true := by
          rw [hasEntry_iff_lookup]
          exact himpl hb
        simp [applyLeaf, hdash, hhas, setEntry]
    rcases applyOpAt_under gsegs doc (Yaml.map es) item.key.text _ item.value
        (Yaml.map (setEntry es item.key.text item.value)) h hleaf with ⟨d1, happ, hread⟩
    have hyp2 : ∀ item2 ∈ rest, item2.key.text ≠ "-" ∧
        (mustParsePath (yamlPath ++ "/" ++ item2.key.text)).drop 1 = gsegs ++ [item2.key.text] ∧
        ((readNode doc0 (gsegs ++ [item2.key.text])).isSome = true →
          (lookupEntries (setEntry es item.key.text item.value) item2.key.text).isSome = true) := by
      intro item2 hm
      obtain ⟨a, b, c⟩ := hyp item2 (by simp [hm])
      exact ⟨a, b, fun hs => lookup_setEntry_isSome_mono es item.key.text item2.key.text item.value (c hs)⟩
    rcases ih d1 (setEntry es item.key.text item.value) hread hyp2 with ⟨doc2, happ2, hread2⟩
    refine ⟨doc2, ?_, by simpa using hread2⟩
    have ho : applyOperation doc
        ⟨if (readNode doc0 (gsegs ++ [item.key.text])).isSome then OpType.replace else OpType.add,
         mustParsePath (yamlPath ++ "/" ++ item.key.text), item.value⟩ = Except.ok d1 := by
      show applyOpAt ((mustParsePath (yamlPath ++ "/" ++ item.key.text)).drop 1) doc _ item.value = Except.ok d1
      rw [hdrop]
      exact happ
    show (match applyOperation doc
            ⟨if (readNode doc0 (gsegs ++ [item.key.text])).isSome then OpType.replace else OpType.add,
             mustParsePath (yamlPath ++ "/" ++ item.key.text), item.value⟩ with
          | Except.error e => Except.error e
          | Except.ok d => applyPatch d (rest.map (fun item =>
              ⟨if (readNode doc0 (gsegs ++ [item.key.text])).isSome then OpType.replace else OpType.add,
               mustParsePath (yamlPath ++ "/" ++ item.key.text), item.value⟩))) = Except.ok doc2
    rw [ho]
    exact happ2

theorem createSetLoop_spec (doc : Yaml) (yamlPath : String) (gsegs : List String) :
    ∀ (items : MapSlice) (idx : Nat),
    (∀ item ∈ items, item.isStringKey = true ∧
      parseGoccyPath (yamlPatchPathToGoccyPathString (yamlPath ++ "/" ++ item.key.text)) =
        some (gsegs ++ [item.key.text])) →
    createSetYAMLMapValuePatchLoop doc yamlPath items idx =
      Except.ok (items.map (fun item =>
        ⟨if (readNode doc (gsegs ++ [item.key.text])).isSome then OpType.replace else OpType.add,
         mustParsePath (yamlPath ++ "/" ++ item.key.text), item.value⟩)) := by
  intro items
  induction items with
  | nil => intro idx _; rfl
  | cons item rest ih =>
    intro idx hyp
    obtain ⟨hstr, hparse⟩ := hyp item (by simp)
    rcases item with ⟨key, v⟩
    rcases key with k | t
    · show (match checkNodeExists doc (yamlPath ++ "/" ++ k) with
            | Except.error e => Except.error e
            | Except.ok nodeExists =>
              match createSetYAMLMapValuePatchLoop doc yamlPath rest (idx + 1) with
              | Except.error e => Except.error e
              | Except.ok tail =>
                Except.ok (Operation.mk (if nodeExists then OpType.replace else OpType.add)
                  (mustParsePath (yamlPath ++ "/" ++ k)) v :: tail)) = _
      rw [checkNodeExists_eval doc (yamlPath ++ "/" ++ k) (gsegs ++ [k]) hparse]
      show (match createSetYAMLMapValuePatchLoop doc yamlPath rest (idx + 1) with
            | Except.error e => Except.error e
            | Except.ok tail =>
              Except.ok (Operation.mk
                (if (readNode doc (gsegs ++ [k])).isSome then OpType.replace else OpType.add)
                (mustParsePath (yamlPath ++ "/" ++ k)) v :: tail)) = _
      rw [ih (idx + 1) (fun it hm => hyp it (by simp [hm]))]
      rfl
    · cases hstr

theorem lookup_fold_notmem :
    ∀ (items : MapSlice) (es : List (String × Yaml)) (k : String),
    k ∉ items.keyTexts →
    lookupEntries (items.foldl (fun acc item => setEntry acc item.key.text item.value) es) k =
      lookupEntries es k := by
  intro items
  induction items with
  | nil => intro es k _; rfl
  | cons item rest ih =>
    intro es k hk
    have hk1 : k ≠ item.key.text := by
      intro hc
      exact hk (by simp [MapSlice.keyTexts, hc])
    have hk2 : k ∉ MapSlice.keyTexts rest := by
      intro hc
      exact hk (by simp [MapSlice.keyTexts] at hc ⊢; exact Or.inr hc)
    show lookupEntries (rest.foldl (fun acc item => setEntry acc item.key.text item.value)
        (setEntry es item.key.text item.value)) k = lookupEntries es k
    rw [ih (setEntry es item.key.text item.value) k hk2]
    exact lookup_setEntry_ne es item.key.text k item.value hk1

theorem lookup_fold_mem :
    ∀ (items : MapSlice) (es : List (String × Yaml)) (item : MapItem),
    items.keyTexts.Nodup → item ∈ items →
    lookupEntries (items.foldl (fun acc item => setEntry acc item.key.text item.value) es)
      item.key.text = some item.value := by
  intro items
  induction items with
  | nil => intro es item _ hm; cases hm
  | cons it rest ih =>
    intro es item hnd hm
    have hnd2 : (MapSlice.keyTexts rest).Nodup ∧ it.key.text ∉ MapSlice.keyTexts rest := by
      have : (it.key.text :: MapSlice.keyTexts rest).Nodup := by
        simpa [MapSlice.keyTexts] using hnd
      exact ⟨this.of_cons, by
        intro hc
        exact (List.nodup_cons.mp this).1 hc⟩
    rcases List.mem_cons.mp hm with heq | hmem
    · subst heq
      show lookupEntries (rest.foldl (fun acc item => setEntry acc item.key.text item.value)
          (setEntry es item.key.text item.value)) item.key.text = some item.value
      rw [lookup_fold_notmem rest (setEntry es item.key.text item.value) item.key.text hnd2.2]
      exact lookup_setEntry_self es item.key.text item.value
    · exact ih (setEntry es it.key.text it.value) item hnd2.1 hmem

/-- C2: merging a non-empty string-keyed mapping at an existing target path
    emits, per key in iteration order, Replace when the child path already
    exists and Add otherwise; applying the patch preserves every base key of
    the target absent from the override mapping with its original value and
    leaves every override key holding the override's value (shallow). -/
theorem c2_map_merge (doc : Yaml) (yamlPath : String) (gsegs pp : List String)
    (es0 : List (String × Yaml)) (mapValue : MapSlice)
    (hconv : parseGoccyPath (yamlPatchPathToGoccyPathString yamlPath) = some gsegs)
    (htex : readNode doc gsegs = some (Yaml.map es0))
    (hpp : parsePath yamlPath = some pp)
    (hlen : 1 < pp.length)
    (hne : mapValue ≠ [])
    (hitems : ∀ item ∈ mapValue, item.isStringKey = true ∧ item.key.text ≠ "-" ∧
      parseGoccyPath (yamlPatchPathToGoccyPathString (yamlPath ++ "/" ++ item.key.text)) =
        some (gsegs ++ [item.key.text]) ∧
      (mustParsePath (yamlPath ++ "/" ++ item.key.text)).drop 1 = gsegs ++ [item.key.text])
    (hnodup : mapValue.keyTexts.Nodup) :
    createSetYAMLMapValuePatch doc yamlPath mapValue =
      Except.ok (mapValue.map (fun item =>
        ⟨if (readNode doc (gsegs ++ [item.key.text])).isSome then OpType.replace else OpType.add,
         mustParsePath (yamlPath ++ "/" ++ item.key.text), item.value⟩)) ∧
    ∃ doc2, applyAddOrSetYAMLMapPatch doc yamlPath mapValue = Except.ok doc2 ∧
      ∃ esF, readNode doc2 gsegs = some (Yaml.map esF) ∧
        (∀ k, k ∉ mapValue.keyTexts → lookupEntries esF k = lookupEntries es0 k) ∧
        (∀ item ∈ mapValue, lookupEntries esF item.key.text = some item.value) := by
  have hex : checkNodeExists doc yamlPath = Except.ok true := by
    rw [checkNodeExists_eval doc yamlPath gsegs hconv, htex]
    rfl
  have hloop := createSetLoop_spec doc yamlPath gsegs mapValue 0
    (fun it hm => ⟨(hitems it hm).1, (hitems it hm).2.2.1⟩)
  have hcreate : createSetYAMLMapValuePatch doc yamlPath mapValue =
      Except.ok (mapValue.map (fun item =>
        ⟨if (readNode doc (gsegs ++ [item.key.text])).isSome then OpType.replace else OpType.add,
         mustParsePath (yamlPath ++ "/" ++ item.key.text), item.value⟩)) := by
    unfold createSetYAMLMapValuePatch
    rw [if_neg (by simpa using hne), hloop]
    show addOrSetYAMLPatch doc yamlPath _ (MapSlice.toYaml mapValue) = _
    unfold addOrSetYAMLPatch
    rw [hpp]
    have hgt : ¬ pp.length ≤ 1 := by omega
    simp [hgt, hex]
  refine ⟨hcreate, ?_⟩
  have hfold := applyPatch_set_map gsegs yamlPath doc mapValue doc es0 htex
    (fun it hm => ⟨(hitems it hm).2.1, (hitems it hm).2.2.2, by
      intro hs
      rw [readNode_snoc_key doc gsegs es0 it.key.text htex] at hs
      exact hs⟩)
  rcases hfold with ⟨doc2, happ, hread⟩
  refine ⟨doc2, ?_, ?_⟩
  · unfold applyAddOrSetYAMLMapPatch
    rw [if_neg (by simpa using hne), hcreate]
    show (match applyPatch doc (mapValue.map (fun item =>
            ⟨if (readNode doc (gsegs ++ [item.key.text])).isSome then OpType.replace else OpType.add,
             mustParsePath (yamlPath ++ "/" ++ item.key.text), item.value⟩)) with
          | Except.error e => Except.error ("failed to apply patch for " ++ yamlPath ++ ": " ++ e)
          | Except.ok applied => Except.ok applied) = Except.ok doc2
    rw [happ]
  · refine ⟨mapValue.foldl (fun acc item => setEntry acc item.key.text item.value) es0, hread, ?_, ?_⟩
    · intro k hk
      exact lookup_fold_notmem mapValue es0 k hk
    · intro item hm
      exact lookup_fold_mem mapValue es0 item hnodup hm

theorem c2_map_merge_witness :
    (parseGoccyPath (yamlPatchPathToGoccyPathString "/linters/settings") =
        some ["linters", "settings"] ∧
     readNode (Yaml.map [("linters", Yaml.map [("settings", Yaml.map [("custom",
         Yaml.map [("type", Yaml.scalar "module"), ("description", Yaml.scalar "d")])])])])
       ["linters", "settings"] =
       some (Yaml.map [("custom",
         Yaml.map [("type", Yaml.scalar "module"), ("description", Yaml.scalar "d")])]) ∧
     parsePath "/linters/settings" = some ["", "linters", "settings"] ∧
     1 < (["", "linters", "settings"] : List String).length ∧
     ([⟨YamlKey.str "errcheck", Yaml.map [("check-blank", Yaml.scalar "true")]⟩] : MapSlice) ≠ [] ∧
     (MapSlice.keyTexts [⟨YamlKey.str "errcheck", Yaml.map [("check-blank", Yaml.scalar "true")]⟩]).Nodup) ∧
    (createSetYAMLMapValuePatch
        (Yaml.map [("linters", Yaml.map [("settings", Yaml.map [("custom",
          Yaml.map [("type", Yaml.scalar "module"), ("description", Yaml.scalar "d")])])])])
        "/linters/settings"
        [⟨YamlKey.str "errcheck", Yaml.map [("check-blank", Yaml.scalar "true")]⟩] =
      Except.ok (([⟨YamlKey.str "errcheck", Yaml.map [("check-blank", Yaml.scalar "true")]⟩] : MapSlice).map
        (fun item =>
          ⟨if (readNode (Yaml.map [("linters", Yaml.map [("settings", Yaml.map [("custom",
              Yaml.map [("type", Yaml.scalar "module"), ("description", Yaml.scalar "d")])])])])
              (["linters", "settings"] ++ [item.key.text])).isSome then OpType.replace else OpType.add,
           mustParsePath ("/linters/settings" ++ "/" ++ item.key.text), item.value⟩)) ∧
     ∃ doc2, applyAddOrSetYAMLMapPatch
        (Yaml.map [("linters", Yaml.map [("settings", Yaml.map [("custom",
          Yaml.map [("type", Yaml.scalar "module"), ("description", Yaml.scalar "d")])])])])
        "/linters/settings"
        [⟨YamlKey.str "errcheck", Yaml.map [("check-blank", Yaml.scalar "true")]⟩] = Except.ok doc2 ∧
      ∃ esF, readNode doc2 ["linters", "settings"] = some (Yaml.map esF) ∧
        (∀ k, k ∉ MapSlice.keyTexts
            [⟨YamlKey.str "errcheck", Yaml.map [("check-blank", Yaml.scalar "true")]⟩] →
          lookupEntries esF k = lookupEntries [("custom",
            Yaml.map [("type", Yaml.scalar "module"), ("description", Yaml.scalar "d")])] k) ∧
        (∀ item ∈ ([⟨YamlKey.str "errcheck", Yaml.map [("check-blank", Yaml.scalar "true")]⟩] : MapSlice),
          lookupEntries esF item.key.text = some item.value)) :=
  ⟨⟨rfl, rfl, rfl, by decide, List.cons_ne_nil _ _, by decide⟩,
   c2_map_merge
     (Yaml.map [("linters", Yaml.map [("settings", Yaml.map [("custom",
       Yaml.map [("type", Yaml.scalar "module"), ("description", Yaml.scalar "d")])])])])
     "/linters/settings" ["linters", "settings"] ["", "linters", "settings"]
     [("custom", Yaml.map [("type", Yaml.scalar "module"), ("description", Yaml.scalar "d")])]
     [⟨YamlKey.str "errcheck", Yaml.map [("check-blank", Yaml.scalar "true")]⟩]
     rfl rfl rfl (by decide) (List.cons_ne_nil _ _)
     (by
       intro it hm
       rw [List.mem_singleton] at hm
       subst hm
       exact ⟨rfl, by decide, rfl, rfl⟩)
     (by decide)⟩

/-
Synthesis at a fresh top-level key (C6).
-/

theorem createSetLoop_ok (doc : Yaml) (yamlPath : String) :
    ∀ (items : MapSlice) (idx : Nat),
    (∀ item ∈ items, item.isStringKey = true ∧
      ∃ b, checkNodeExists doc (yamlPath ++ "/" ++ item.key.text) = Except.ok b) →
    ∃ setP, createSetYAMLMapValuePatchLoop doc yamlPath items idx = Except.ok setP := by
  intro items
  induction items with
  | nil => intro idx _; exact ⟨[], rfl⟩
  | cons item rest ih =>
    intro idx hyp
    obtain ⟨hstr, b, hb⟩ := hyp item (by simp)
    rcases item with ⟨key, v⟩
    rcases key with k | t
    · rcases ih (idx + 1) (fun it hm => hyp it (by simp [hm])) with ⟨tail, htail⟩
      refine ⟨⟨if b then OpType.replace else OpType.add,
        mustParsePath (yamlPath ++ "/" ++ k), v⟩ :: tail, ?_⟩
      show (match checkNodeExists doc (yamlPath ++ "/" ++ k) with
            | Except.error e => Except.error e
            | Except.ok nodeExists =>
              match createSetYAMLMapValuePatchLoop doc yamlPath rest (idx + 1) with
              | Except.error e => Except.error e
              | Except.ok tail =>
                Except.ok (Operation.mk (if nodeExists then OpType.replace else OpType.add)
                  (mustParsePath (yamlPath ++ "/" ++ k)) v :: tail)) = _
      have hb2 : checkNodeExists doc (yamlPath ++ "/" ++ k) = Except.ok b := hb
      rw [hb2, htail]
    · cases hstr

/-- C6: inserting a mapping at a path whose first segment is absent from the
    root mapping synthesizes the whole path as one appended top-level entry:
    the base entries are kept exactly (values and order), the new entry is
    appended at the end, and the full target path resolves to the inserted
    mapping value. -/
theorem c6_synthesis_preserves_siblings (es : List (String × Yaml)) (yamlPath : String)
    (s0 : String) (rest gtl : List String) (mapValue : MapSlice)
    (hpp : parsePath yamlPath = some ("" :: s0 :: rest))
    (hgp : parseGoccyPath (yamlPatchPathToGoccyPathString yamlPath) = some (s0 :: gtl))
    (h0 : lookupEntries es s0 = none)
    (hs0 : s0 ≠ "-")
    (hp1 : parseGoccyPath (yamlPatchPathToGoccyPathString ("/" ++ s0)) = some [s0])
    (hmp : mustParsePath ("/" ++ s0) = ["", s0])
    (hne : mapValue ≠ [])
    (hkeys : ∀ item ∈ mapValue, item.isStringKey = true ∧
      ∃ tl, parseGoccyPath (yamlPatchPathToGoccyPathString (yamlPath ++ "/" ++ item.key.text)) =
        some tl) :
    applyAddOrSetYAMLMapPatch (Yaml.map es) yamlPath mapValue =
      Except.ok (Yaml.map (es ++ [(s0, nestValue rest (MapSlice.toYaml mapValue))])) ∧
    readNode (Yaml.map (es ++ [(s0, nestValue rest (MapSlice.toYaml mapValue))])) (s0 :: rest) =
      some (MapSlice.toYaml mapValue) := by
  have hsplit : splitOnChar yamlPath '/' = "" :: s0 :: rest := by
    unfold parsePath at hpp
    by_cases hroot : yamlPath = "/"
    · rw [if_pos hroot] at hpp
      simp at hpp
    · rw [if_neg hroot] at hpp
      by_cases hsw : startsWithChar yamlPath '/' = true
      · rw [if_pos hsw] at hpp
        simpa using hpp
      · rw [if_neg hsw] at hpp
        cases hpp
  have hreadmiss : readNode (Yaml.map es) (s0 :: gtl) = none := by
    rw [readNode_cons, lookupKey_map, h0]
  have hmiss : checkNodeExists (Yaml.map es) yamlPath = Except.ok false := by
    rw [checkNodeExists_eval _ _ (s0 :: gtl) hgp, hreadmiss]
    rfl
  have hread1 : readNode (Yaml.map es) [s0] = none := by
    rw [readNode_cons, lookupKey_map, h0]
  have hmiss1 : checkNodeExists (Yaml.map es) ("/" ++ s0) = Except.ok false := by
    rw [checkNodeExists_eval _ _ [s0] hp1, hread1]
    rfl
  have hwalk : walkFirstMissing (Yaml.map es) ("" :: s0 :: rest) 0 "" =
      Except.ok (some (("/" : String) ++ s0, 1)) := by
    show (match checkNodeExists (Yaml.map es) "/" with
          | Except.error e => Except.error e
          | Except.ok true => walkFirstMissing (Yaml.map es) (s0 :: rest) 1 "/"
          | Except.ok false => Except.ok (some (("/" : String), 0))) = _
    rw [checkNodeExists_root]
    show (match checkNodeExists (Yaml.map es) ("/" ++ s0) with
          | Except.error e => Except.error e
          | Except.ok true => walkFirstMissing (Yaml.map es) rest 2 (("/" : String) ++ s0)
          | Except.ok false => Except.ok (some (("/" : String) ++ s0, 1))) = _
    rw [hmiss1]
  set nv := nestValue rest (MapSlice.toYaml mapValue) with hnv
  have haddset : ∀ setP, addOrSetYAMLPatch (Yaml.map es) yamlPath setP (MapSlice.toYaml mapValue) =
      Except.ok [⟨OpType.add, ["", s0], nv⟩] := by
    intro setP
    unfold addOrSetYAMLPatch
    rw [hpp]
    have hgt : ¬ (("" :: s0 :: rest).length ≤ 1) := by simp
    simp only [hgt, hmiss, if_false]
    show (match walkFirstMissing (Yaml.map es) ("" :: s0 :: rest) 0 "" with
        | Except.error e => Except.error e
        | Except.ok none => Except.error "index out of range"
        | Except.ok (some (pathSoFar, furthestExistingIdx)) =>
          Except.ok [Operation.mk OpType.add (mustParsePath pathSoFar)
            ((createObjectsToAddForPath yamlPath (MapSlice.toYaml mapValue)).getD
              furthestExistingIdx Yaml.null)]) = _
    rw [hwalk]
    have hobj : (createObjectsToAddForPath yamlPath (MapSlice.toYaml mapValue)).getD 1 Yaml.null = nv := by
      rw [createObjectsToAddForPath_getD yamlPath _ 1 (by rw [hsplit]; simp), hsplit]
      simp [hnv]
    show Except.ok [Operation.mk OpType.add (mustParsePath ("/" ++ s0))
        ((createObjectsToAddForPath yamlPath (MapSlice.toYaml mapValue)).getD 1 Yaml.null)] = _
    rw [hmp, hobj]
  have hloopEx : ∃ setP, createSetYAMLMapValuePatchLoop (Yaml.map es) yamlPath mapValue 0 =
      Except.ok setP := by
    apply createSetLoop_ok
    intro it hm
    obtain ⟨hstr, tl, hparse⟩ := hkeys it hm
    exact ⟨hstr, (readNode (Yaml.map es) tl).isSome, checkNodeExists_eval _ _ tl hparse⟩
  rcases hloopEx with ⟨setP, hloop⟩
  have hcreate : createSetYAMLMapValuePatch (Yaml.map es) yamlPath mapValue =
      Except.ok [⟨OpType.add, ["", s0], nv⟩] := by
    unfold createSetYAMLMapValuePatch
    rw [if_neg (by simpa using hne), hloop]
    exact haddset setP
  have hhe : hasEntry es s0 = false := by
    rcases hb : hasEntry es s0 with _ | _
    · rfl
    · exfalso
      have := (hasEntry_iff_lookup es s0).mp hb
      rw [h0] at this
      cases this
  have happly : applyPatch (Yaml.map es) [⟨OpType.add, ["", s0], nv⟩] =
      Except.ok (Yaml.map (es ++ [(s0, nv)])) := by
    have ho : applyOperation (Yaml.map es) ⟨OpType.add, ["", s0], nv⟩ =
        Except.ok (Yaml.map (es ++ [(s0, nv)])) := by
      show applyLeaf (Yaml.map es) s0 OpType.add nv = _
      simp [applyLeaf, hs0, setEntry, hhe]
    show (match applyOperation (Yaml.map es) ⟨OpType.add, ["", s0], nv⟩ with
          | Except.error e => Except.error e
          | Except.ok d => applyPatch d []) = _
    rw [ho]
    rfl
  have hlookfin : lookupEntries (es ++ [(s0, nv)]) s0 = some nv := by
    rw [lookupEntries_append, h0]
    simp [lookupEntries_cons]
  constructor
  · unfold applyAddOrSetYAMLMapPatch
    rw [if_neg (by simpa using hne), hcreate]
    show (match applyPatch (Yaml.map es) [⟨OpType.add, ["", s0], nv⟩] with
          | Except.error e => Except.error ("failed to apply patch for " ++ yamlPath ++ ": " ++ e)
          | Except.ok applied => Except.ok applied) = _
    rw [happly]
  · rw [readNode_cons, lookupKey_map, hlookfin]
    exact readNode_nestValue rest (MapSlice.toYaml mapValue)

theorem c6_synthesis_preserves_siblings_witness :
    (parsePath "/path/to/map" = some ["", "path", "to", "map"] ∧
     parseGoccyPath (yamlPatchPathToGoccyPathString "/path/to/map") = some ["path", "to", "map"] ∧
     lookupEntries [("other", Yaml.scalar "keep")] "path" = none ∧
     "path" ≠ "-" ∧
     parseGoccyPath (yamlPatchPathToGoccyPathString ("/" ++ "path")) = some ["path"] ∧
     mustParsePath ("/" ++ "path") = ["", "path"] ∧
     ([⟨YamlKey.str "key-1", Yaml.scalar "value-1"⟩] : MapSlice) ≠ []) ∧
    (applyAddOrSetYAMLMapPatch (Yaml.map [("other", Yaml.scalar "keep")]) "/path/to/map"
        [⟨YamlKey.str "key-1", Yaml.scalar "value-1"⟩] =
      Except.ok (Yaml.map ([("other", Yaml.scalar "keep")] ++
        [("path", nestValue ["to", "map"]
          (MapSlice.toYaml [⟨YamlKey.str "key-1", Yaml.scalar "value-1"⟩]))])) ∧
     readNode (Yaml.map ([("other", Yaml.scalar "keep")] ++
        [("path", nestValue ["to", "map"]
          (MapSlice.toYaml [⟨YamlKey.str "key-1", Yaml.scalar "value-1"⟩]))]))
        ("path" :: ["to", "map"]) =
      some (MapSlice.toYaml [⟨YamlKey.str "key-1", Yaml.scalar "value-1"⟩])) :=
  ⟨⟨rfl, rfl, rfl, by decide, rfl, rfl, List.cons_ne_nil _ _⟩,
   c6_synthesis_preserves_siblings [("other", Yaml.scalar "keep")] "/path/to/map"
     "path" ["to", "map"] ["to", "map"]
     [⟨YamlKey.str "key-1", Yaml.scalar "value-1"⟩]
     rfl rfl rfl (by decide) rfl rfl (List.cons_ne_nil _ _)
     (by
       intro it hm
       rw [List.mem_singleton] at hm
       subst hm
       exact ⟨rfl, ⟨["path", "to", "map", "key-1"], rfl⟩⟩)⟩

/-
Orchestration (C4) and the all-empty override (C7).
-/

/-- C4: MergePluginConfigWithConfig is exactly the sequential composition of
    the version default followed by the six merge steps in their fixed order,
    each consuming the previous step's output, and every step is the identity
    on the document when its override field is empty. -/
theorem c4_fixed_step_order (doc : Yaml) (cfg : PluginConfig) :
    MergePluginConfigWithConfig doc (some cfg) =
      Except.bind (versionDefaultStep doc) (fun d0 =>
      Except.bind (applyAddYAMLSlicePatch d0 "/linters/enable" (cfg.linters.enable.map Yaml.scalar)) (fun d1 =>
      Except.bind (applyAddYAMLSlicePatch d1 "/linters/disable" (cfg.linters.disable.map Yaml.scalar)) (fun d2 =>
      Except.bind (applyAddOrSetYAMLMapPatch d2 "/linters/settings" cfg.linters.settings) (fun d3 =>
      Except.bind (applyAddYAMLSlicePatch d3 "/linters/exclusions/rules" (cfg.linters.exclusions.rules.map RulesConfig.toYaml)) (fun d4 =>
      Except.bind (applyAddYAMLSlicePatch d4 "/linters/exclusions/paths" (cfg.linters.exclusions.paths.map Yaml.scalar)) (fun d5 =>
      applyAddYAMLSlicePatch d5 "/linters/exclusions/paths-except" (cfg.linters.exclusions.pathsExcept.map Yaml.scalar))))))) ∧
    (∀ (d : Yaml) (p : String), applyAddYAMLSlicePatch d p ([] : List Yaml) = Except.ok d) ∧
    (∀ (d : Yaml) (p : String), applyAddOrSetYAMLMapPatch d p ([] : MapSlice) = Except.ok d) ∧
    (cfg.linters.enable = [] → ∀ d : Yaml,
      applyAddYAMLSlicePatch d "/linters/enable" (cfg.linters.enable.map Yaml.scalar) = Except.ok d) ∧
    (cfg.linters.disable = [] → ∀ d : Yaml,
      applyAddYAMLSlicePatch d "/linters/disable" (cfg.linters.disable.map Yaml.scalar) = Except.ok d) ∧
    (cfg.linters.settings = [] → ∀ d : Yaml,
      applyAddOrSetYAMLMapPatch d "/linters/settings" cfg.linters.settings = Except.ok d) ∧
    (cfg.linters.exclusions.rules = [] → ∀ d : Yaml,
      applyAddYAMLSlicePatch d "/linters/exclusions/rules" (cfg.linters.exclusions.rules.map RulesConfig.toYaml) = Except.ok d) ∧
    (cfg.linters.exclusions.paths = [] → ∀ d : Yaml,
      applyAddYAMLSlicePatch d "/linters/exclusions/paths" (cfg.linters.exclusions.paths.map Yaml.scalar) = Except.ok d) ∧
    (cfg.linters.exclusions.pathsExcept = [] → ∀ d : Yaml,
      applyAddYAMLSlicePatch d "/linters/exclusions/paths-except" (cfg.linters.exclusions.pathsExcept.map Yaml.scalar) = Except.ok d) := by
  refine ⟨?_, fun d p => rfl, fun d p => rfl, ?_, ?_, ?_, ?_, ?_, ?_⟩
  · unfold MergePluginConfigWithConfig
    rcases versionDefaultStep doc with e | d0 <;> simp only [Except.bind]
    rcases applyAddYAMLSlicePatch d0 "/linters/enable" (cfg.linters.enable.map Yaml.scalar)
      with e | d1 <;> simp only [Except.bind]
    rcases applyAddYAMLSlicePatch d1 "/linters/disable" (cfg.linters.disable.map Yaml.scalar)
      with e | d2 <;> simp only [Except.bind]
    rcases applyAddOrSetYAMLMapPatch d2 "/linters/settings" cfg.linters.settings
      with e | d3 <;> simp only [Except.bind]
    rcases applyAddYAMLSlicePatch d3 "/linters/exclusions/rules" (cfg.linters.exclusions.rules.map RulesConfig.toYaml)
      with e | d4 <;> simp only [Except.bind]
    rcases applyAddYAMLSlicePatch d4 "/linters/exclusions/paths" (cfg.linters.exclusions.paths.map Yaml.scalar)
      with e | d5 <;> simp only [Except.bind]
    rcases applyAddYAMLSlicePatch d5 "/linters/exclusions/paths-except" (cfg.linters.exclusions.pathsExcept.map Yaml.scalar)
      with e | d6 <;> simp only [Except.bind]
  · intro h d; rw [h]; rfl
  · intro h d; rw [h]; rfl
  · intro h d; rw [h]; rfl
  · intro h d; rw [h]; rfl
  · intro h d; rw [h]; rfl
  · intro h d; rw [h]; rfl

theorem c4_fixed_step_order_witness :
    ((⟨⟨[], [], [], ⟨[], [], []⟩⟩⟩ : PluginConfig).linters.enable = [] ∧
     (⟨⟨[], [], [], ⟨[], [], []⟩⟩⟩ : PluginConfig).linters.settings = []) ∧
    (MergePluginConfigWithConfig (Yaml.map [("version", Yaml.scalar "2")])
        (some ⟨⟨[], [], [], ⟨[], [], []⟩⟩⟩) =
      Except.bind (versionDefaultStep (Yaml.map [("version", Yaml.scalar "2")])) (fun d0 =>
      Except.bind (applyAddYAMLSlicePatch d0 "/linters/enable"
        ((⟨⟨[], [], [], ⟨[], [], []⟩⟩⟩ : PluginConfig).linters.enable.map Yaml.scalar)) (fun d1 =>
      Except.bind (applyAddYAMLSlicePatch d1 "/linters/disable"
        ((⟨⟨[], [], [], ⟨[], [], []⟩⟩⟩ : PluginConfig).linters.disable.map Yaml.scalar)) (fun d2 =>
      Except.bind (applyAddOrSetYAMLMapPatch d2 "/linters/settings"
        (⟨⟨[], [], [], ⟨[], [], []⟩⟩⟩ : PluginConfig).linters.settings) (fun d3 =>
      Except.bind (applyAddYAMLSlicePatch d3 "/linters/exclusions/rules"
        ((⟨⟨[], [], [], ⟨[], [], []⟩⟩⟩ : PluginConfig).linters.exclusions.rules.map RulesConfig.toYaml)) (fun d4 =>
      Except.bind (applyAddYAMLSlicePatch d4 "/linters/exclusions/paths"
        ((⟨⟨[], [], [], ⟨[], [], []⟩⟩⟩ : PluginConfig).linters.exclusions.paths.map Yaml.scalar)) (fun d5 =>
      applyAddYAMLSlicePatch d5 "/linters/exclusions/paths-except"
        ((⟨⟨[], [], [], ⟨[], [], []⟩⟩⟩ : PluginConfig).linters.exclusions.pathsExcept.map Yaml.scalar)))))))) :=
  ⟨⟨rfl, rfl⟩,
   (c4_fixed_step_order (Yaml.map [("version", Yaml.scalar "2")]) ⟨⟨[], [], [], ⟨[], [], []⟩⟩⟩).1⟩

/-- C7: an override whose six fields are all empty (and likewise a nil
    override) merges to exactly the version-defaulted base; when the base
    already has a root-level version entry the output equals the input
    document. -/
theorem c7_empty_override_identity (doc : Yaml) (cfg : PluginConfig) (w : Yaml)
    (he : cfg.linters.enable = []) (hd : cfg.linters.disable = [])
    (hs : cfg.linters.settings = []) (hr : cfg.linters.exclusions.rules = [])
    (hp : cfg.linters.exclusions.paths = []) (hx : cfg.linters.exclusions.pathsExcept = []) :
    MergePluginConfigWithConfig doc (some cfg) = MergePluginConfigWithConfig doc none ∧
    (doc.lookupKey "version" = some w →
      MergePluginConfigWithConfig doc (some cfg) = Except.ok doc ∧
      MergePluginConfigWithConfig doc none = Except.ok doc) := by
  have hnone : MergePluginConfigWithConfig doc (some cfg) = MergePluginConfigWithConfig doc none := by
    unfold MergePluginConfigWithConfig
    rcases hv : versionDefaultStep doc with e | d0
    · rfl
    · show (match applyAddYAMLSlicePatch d0 "/linters/enable" (cfg.linters.enable.map Yaml.scalar) with
            | Except.error e => Except.error e
            | Except.ok d1 => _) = Except.ok d0
      rw [he, hd, hs, hr, hp, hx]
      rfl
  refine ⟨hnone, ?_⟩
  intro hversion
  have hv : versionDefaultStep doc = Except.ok doc := by
    unfold versionDefaultStep
    rw [checkNodeExists_eval doc "/version" ["version"] rfl]
    have hread : readNode doc ["version"] = some w := by
      rw [readNode_cons, hversion]
      rfl
    rw [hread]
    rfl
  have hmergeNone : MergePluginConfigWithConfig doc none = Except.ok doc := by
    unfold MergePluginConfigWithConfig
    rw [hv]
  exact ⟨by rw [hnone, hmergeNone], hmergeNone⟩

theorem c7_empty_override_identity_witness :
    ((⟨⟨[], [], [], ⟨[], [], []⟩⟩⟩ : PluginConfig).linters.enable = [] ∧
     (Yaml.map [("version", Yaml.scalar "3"), ("a", Yaml.scalar "x")]).lookupKey "version" =
       some (Yaml.scalar "3")) ∧
    (MergePluginConfigWithConfig (Yaml.map [("version", Yaml.scalar "3"), ("a", Yaml.scalar "x")])
        (some ⟨⟨[], [], [], ⟨[], [], []⟩⟩⟩) =
      MergePluginConfigWithConfig (Yaml.map [("version", Yaml.scalar "3"), ("a", Yaml.scalar "x")]) none ∧
     ((Yaml.map [("version", Yaml.scalar "3"), ("a", Yaml.scalar "x")]).lookupKey "version" =
        some (Yaml.scalar "3") →
      MergePluginConfigWithConfig (Yaml.map [("version", Yaml.scalar "3"), ("a", Yaml.scalar "x")])
          (some ⟨⟨[], [], [], ⟨[], [], []⟩⟩⟩) =
        Except.ok (Yaml.map [("version", Yaml.scalar "3"), ("a", Yaml.scalar "x")]) ∧
      MergePluginConfigWithConfig (Yaml.map [("version", Yaml.scalar "3"), ("a", Yaml.scalar "x")]) none =
        Except.ok (Yaml.map [("version", Yaml.scalar "3"), ("a", Yaml.scalar "x")]))) :=
  ⟨⟨rfl, rfl⟩,
   c7_empty_override_identity (Yaml.map [("version", Yaml.scalar "3"), ("a", Yaml.scalar "x")])
     ⟨⟨[], [], [], ⟨[], [], []⟩⟩⟩ (Yaml.scalar "3") rfl rfl rfl rfl rfl rfl⟩

/-
Version defaulting (C5) and its frame through the merge steps.
-/

theorem hasEntry_false_of_lookup_none (es : List (String × Yaml)) (k : String)
    (h : lookupEntries es k = none) : hasEntry es k = false := by
  rcases hb : hasEntry es k with _ | _
  · rfl
  · exfalso
    have := (hasEntry_iff_lookup es k).mp hb
    rw [h] at this
    cases this

theorem versionDefaultStep_present (doc : Yaml) (w : Yaml)
    (h : doc.lookupKey "version" = some w) : versionDefaultStep doc = Except.ok doc := by
  unfold versionDefaultStep
  rw [checkNodeExists_eval doc "/version" ["version"] rfl]
  have hread : readNode doc ["version"] = some w := by
    rw [readNode_cons, h]
    rfl
  rw [hread]
  rfl

theorem versionDefaultStep_absent (es : List (String × Yaml))
    (h : lookupEntries es "version" = none) :
    versionDefaultStep (Yaml.map es) =
      Except.ok (Yaml.map (es ++ [("version", Yaml.scalar "2")])) := by
  unfold versionDefaultStep
  rw [checkNodeExists_eval _ "/version" ["version"] rfl]
  have hread : readNode (Yaml.map es) ["version"] = none := by
    rw [readNode_cons, lookupKey_map, h]
  rw [hread]
  have hhe : hasEntry es "version" = false := hasEntry_false_of_lookup_none es "version" h
  have ho : applyOperation (Yaml.map es) ⟨OpType.add, mustParsePath "/version", Yaml.scalar "2"⟩ =
      Except.ok (Yaml.map (es ++ [("version", Yaml.scalar "2")])) := by
    show applyLeaf (Yaml.map es) "version" OpType.add (Yaml.scalar "2") = _
    unfold applyLeaf
    rw [if_neg (by decide : ¬ ("version" : String) = "-")]
    show Except.ok (Yaml.map (setEntry es "version" (Yaml.scalar "2"))) = _
    unfold setEntry
    rw [hhe]
    rfl
  have happ : applyPatch (Yaml.map es) [⟨OpType.add, mustParsePath "/version", Yaml.scalar "2"⟩] =
      Except.ok (Yaml.map (es ++ [("version", Yaml.scalar "2")])) := by
    show (match applyOperation (Yaml.map es)
            ⟨OpType.add, mustParsePath "/version", Yaml.scalar "2"⟩ with
          | Except.error e => Except.error e
          | Except.ok d => applyPatch d []) = _
    rw [ho]
    rfl
  show (match applyPatch (Yaml.map es)
          [⟨OpType.add, mustParsePath "/version", Yaml.scalar "2"⟩] with
        | Except.error e => Except.error ("failed to add version to config: " ++ e)
        | Except.ok configBytes2 => Except.ok configBytes2) = _
  rw [happ]

theorem merge_some_eq_chain (doc : Yaml) (cfg : PluginConfig) :
    MergePluginConfigWithConfig doc (some cfg) =
      Except.bind (versionDefaultStep doc) (fun d0 =>
      Except.bind (applyAddYAMLSlicePatch d0 "/linters/enable" (cfg.linters.enable.map Yaml.scalar)) (fun d1 =>
      Except.bind (applyAddYAMLSlicePatch d1 "/linters/disable" (cfg.linters.disable.map Yaml.scalar)) (fun d2 =>
      Except.bind (applyAddOrSetYAMLMapPatch d2 "/linters/settings" cfg.linters.settings) (fun d3 =>
      Except.bind (applyAddYAMLSlicePatch d3 "/linters/exclusions/rules" (cfg.linters.exclusions.rules.map RulesConfig.toYaml)) (fun d4 =>
      Except.bind (applyAddYAMLSlicePatch d4 "/linters/exclusions/paths" (cfg.linters.exclusions.paths.map Yaml.scalar)) (fun d5 =>
      applyAddYAMLSlicePatch d5 "/linters/exclusions/paths-except" (cfg.linters.exclusions.pathsExcept.map Yaml.scalar))))))) := by
  unfold MergePluginConfigWithConfig
  rcases versionDefaultStep doc with e | d0 <;> simp only [Except.bind]
  rcases applyAddYAMLSlicePatch d0 "/linters/enable" (cfg.linters.enable.map Yaml.scalar)
    with e | d1 <;> simp only [Except.bind]
  rcases applyAddYAMLSlicePatch d1 "/linters/disable" (cfg.linters.disable.map Yaml.scalar)
    with e | d2 <;> simp only [Except.bind]
  rcases applyAddOrSetYAMLMapPatch d2 "/linters/settings" cfg.linters.settings
    with e | d3 <;> simp only [Except.bind]
  rcases applyAddYAMLSlicePatch d3 "/linters/exclusions/rules" (cfg.linters.exclusions.rules.map RulesConfig.toYaml)
    with e | d4 <;> simp only [Except.bind]
  rcases applyAddYAMLSlicePatch d4 "/linters/exclusions/paths" (cfg.linters.exclusions.paths.map Yaml.scalar)
    with e | d5 <;> simp only [Except.bind]
  rcases applyAddYAMLSlicePatch d5 "/linters/exclusions/paths-except" (cfg.linters.exclusions.pathsExcept.map Yaml.scalar)
    with e | d6 <;> simp only [Except.bind]

theorem addOrSetYAMLPatch_shields (doc : Yaml) (yamlPath : String) (setP : Patch) (v : Yaml)
    (patch : Patch) (k : String)
    (hok : addOrSetYAMLPatch doc yamlPath setP v = Except.ok patch)
    (hsp : ∀ op ∈ setP, pathShields op.path k)
    (hw : ∀ p i, walkFirstMissing doc (mustParsePath yamlPath) 0 "" = Except.ok (some (p, i)) →
      pathShields (mustParsePath p) k) :
    ∀ op ∈ patch, pathShields op.path k := by
  rcases hpp : parsePath yamlPath with _ | pp
  · exfalso
    have herr : addOrSetYAMLPatch doc yamlPath setP v =
        Except.error ("failed to parse yamlPath " ++ yamlPath) := by
      unfold addOrSetYAMLPatch
      rw [hpp]
    rw [herr] at hok
    cases hok
  · have hmp : mustParsePath yamlPath = pp := by
      unfold mustParsePath
      rw [hpp]
      rfl
    by_cases hlen : pp.length ≤ 1
    · exfalso
      have herr : addOrSetYAMLPatch doc yamlPath setP v =
          Except.error ("YAML path must have at least one segment after the root, but was " ++ yamlPath) := by
        unfold addOrSetYAMLPatch
        rw [hpp]
        simp [hlen]
      rw [herr] at hok
      cases hok
    · unfold addOrSetYAMLPatch at hok
      rw [hpp] at hok
      simp only [hlen, if_false] at hok
      rcases hce : checkNodeExists doc yamlPath with e | b
      · rw [hce] at hok
        exact absurd hok (by simp)
      · rcases b with _ | _
        · rw [hce] at hok
          have hok2 : (match walkFirstMissing doc pp 0 "" with
              | Except.error e => Except.error e
              | Except.ok none => Except.error "index out of range"
              | Except.ok (some (pathSoFar, furthestExistingIdx)) =>
                Except.ok [Operation.mk OpType.add (mustParsePath pathSoFar)
                  ((createObjectsToAddForPath yamlPath v).getD furthestExistingIdx Yaml.null)]) =
              Except.ok patch := hok
          rcases hwk : walkFirstMissing doc pp 0 "" with e | r
          · rw [hwk] at hok2
            exact absurd hok2 (by simp)
          · rcases r with _ | ⟨pfx, i⟩
            · rw [hwk] at hok2
              exact absurd hok2 (by simp)
            · rw [hwk] at hok2
              have hpatch : patch = [Operation.mk OpType.add (mustParsePath pfx)
                  ((createObjectsToAddForPath yamlPath v).getD i Yaml.null)] := by
                have := hok2
                simp at this
                rw [List.getD_eq_getElem?_getD]
                exact this.symm
              intro op hm
              rw [hpatch, List.mem_singleton] at hm
              subst hm
              exact hw pfx i (by rw [hmp]; exact hwk)
        · rw [hce] at hok
          have hps : setP = patch := by simpa using hok
          subst hps
          exact hsp

theorem walk_shields_of_spec (doc : Yaml) (pp : List String) (k : String)
    (h0 : prefixAt pp 0 = "/")
    (hsh : ∀ j, 0 < j → j < pp.length → pathShields (mustParsePath (prefixAt pp j)) k) :
    ∀ p i, walkFirstMissing doc pp 0 "" = Except.ok (some (p, i)) →
      pathShields (mustParsePath p) k := by
  intro p i hw
  have hspec := walkFirstMissing_spec doc pp pp 0 p i (by rw [List.drop_zero]) (by simpa using hw)
  rcases hspec with ⟨_, hilen, hp, hfalse, _⟩
  subst hp
  by_cases hi : i = 0
  · exfalso
    subst hi
    rw [h0, checkNodeExists_root] at hfalse
    cases hfalse
  · exact hsh i (Nat.pos_of_ne_zero hi) hilen

theorem createSetLoop_paths (doc : Yaml) (yamlPath : String) :
    ∀ (items : MapSlice) (idx : Nat) (setP : Patch),
    createSetYAMLMapValuePatchLoop doc yamlPath items idx = Except.ok setP →
    ∀ op ∈ setP, ∃ item, item ∈ items ∧
      op.path = mustParsePath (yamlPath ++ "/" ++ item.key.text) := by
  intro items
  induction items with
  | nil =>
    intro idx setP h op hm
    have : ([] : Patch) = setP := by simpa [createSetYAMLMapValuePatchLoop] using h
    rw [← this] at hm
    cases hm
  | cons item rest ih =>
    intro idx setP h op hm
    rcases item with ⟨key, v⟩
    rcases key with kk | t
    · have h2 : (match checkNodeExists doc (yamlPath ++ "/" ++ kk) with
          | Except.error e => Except.error e
          | Except.ok nodeExists =>
            match createSetYAMLMapValuePatchLoop doc yamlPath rest (idx + 1) with
            | Except.error e => Except.error e
            | Except.ok tail =>
              Except.ok (Operation.mk (if nodeExists then OpType.replace else OpType.add)
                (mustParsePath (yamlPath ++ "/" ++ kk)) v :: tail)) = Except.ok setP := h
      rcases hce : checkNodeExists doc (yamlPath ++ "/" ++ kk) with e | b
      · rw [hce] at h2
        exact absurd h2 (by simp)
      · rw [hce] at h2
        rcases hrec : createSetYAMLMapValuePatchLoop doc yamlPath rest (idx + 1) with e | tail
        · rw [hrec] at h2
          exact absurd h2 (by simp)
        · rw [hrec] at h2
          have hsp : Operation.mk (if b then OpType.replace else OpType.add)
              (mustParsePath (yamlPath ++ "/" ++ kk)) v :: tail = setP := by
            simpa using h2
          rw [← hsp] at hm
          rcases List.mem_cons.mp hm with heq | hmem
          · refine ⟨⟨YamlKey.str kk, v⟩, by simp, ?_⟩
            rw [heq]
            rfl

          · rcases ih (idx + 1) tail hrec op hmem with ⟨item2, hmem2, hpath2⟩
            exact ⟨item2, by simp [hmem2], hpath2⟩
    · have h2 : (Except.error ("map key " ++ t ++ " at index " ++ toString idx ++ " is not a string") :
          Except String Patch) = Except.ok setP := h
      cases h2

theorem applyAddYAMLSlicePatch_preserves_key (doc doc2 : Yaml) (cPath : String)
    (sl : List Yaml) (k : String)
    (hdash : pathShields (mustParsePath (cPath ++ "/-")) k)
    (hw : ∀ p i, walkFirstMissing doc (mustParsePath cPath) 0 "" = Except.ok (some (p, i)) →
      pathShields (mustParsePath p) k)
    (happ : applyAddYAMLSlicePatch doc cPath sl = Except.ok doc2) :
    doc2.lookupKey k = doc.lookupKey k := by
  unfold applyAddYAMLSlicePatch at happ
  by_cases hsl : sl.isEmpty
  · rw [if_pos hsl] at happ
    have : doc = doc2 := by simpa using happ
    rw [this]
  · rw [if_neg hsl] at happ
    rcases hc : createAddYAMLSlicePatch doc cPath sl with e | patch
    · rw [hc] at happ
      exact absurd happ (by simp)
    · rw [hc] at happ
      have happ2 : (match applyPatch doc patch with
          | Except.error e => Except.error ("failed to apply patch for " ++ cPath ++ ": " ++ e)
          | Except.ok applied => Except.ok applied) = Except.ok doc2 := happ
      rcases ha : applyPatch doc patch with e | d
      · rw [ha] at happ2
        exact absurd happ2 (by simp)
      · rw [ha] at happ2
        have hd : d = doc2 := by simpa using happ2
        subst hd
        have hops : ∀ op ∈ patch, pathShields op.path k := by
          unfold createAddYAMLSlicePatch at hc
          rw [if_neg hsl] at hc
          refine addOrSetYAMLPatch_shields doc cPath _ _ patch k hc ?_ hw
          intro op hm
          rcases List.mem_map.mp hm with ⟨x, _, hxop⟩
          rw [← hxop]
          exact hdash
        exact applyPatch_lookupKey_preserved k patch doc d hops ha

theorem applyAddOrSetYAMLMapPatch_preserves_key (doc doc2 : Yaml) (cPath : String)
    (mv : MapSlice) (k : String)
    (hkeys : ∀ item ∈ mv, pathShields (mustParsePath (cPath ++ "/" ++ item.key.text)) k)
    (hw : ∀ p i, walkFirstMissing doc (mustParsePath cPath) 0 "" = Except.ok (some (p, i)) →
      pathShields (mustParsePath p) k)
    (happ : applyAddOrSetYAMLMapPatch doc cPath mv = Except.ok doc2) :
    doc2.lookupKey k = doc.lookupKey k := by
  unfold applyAddOrSetYAMLMapPatch at happ
  by_cases hmv : mv.isEmpty
  · rw [if_pos hmv] at happ
    have : doc = doc2 := by simpa using happ
    rw [this]
  · rw [if_neg hmv] at happ
    rcases hc : createSetYAMLMapValuePatch doc cPath mv with e | patch
    · rw [hc] at happ
      exact absurd happ (by simp)
    · rw [hc] at happ
      have happ2 : (match applyPatch doc patch with
          | Except.error e => Except.error ("failed to apply patch for " ++ cPath ++ ": " ++ e)
          | Except.ok applied => Except.ok applied) = Except.ok doc2 := happ
      rcases ha : applyPatch doc patch with e | d
      · rw [ha] at happ2
        exact absurd happ2 (by simp)
      · rw [ha] at happ2
        have hd : d = doc2 := by simpa using happ2
        subst hd
        have hops : ∀ op ∈ patch, pathShields op.path k := by
          unfold createSetYAMLMapValuePatch at hc
          rw [if_neg hmv] at hc
          rcases hloop : createSetYAMLMapValuePatchLoop doc cPath mv 0 with e | setP
          · rw [hloop] at hc
            exact absurd hc (by simp)
          · rw [hloop] at hc
            refine addOrSetYAMLPatch_shields doc cPath setP _ patch k hc ?_ hw
            intro op hm
            rcases createSetLoop_paths doc cPath mv 0 setP hloop op hm with ⟨item, hmem, hpath⟩
            rw [hpath]
            exact hkeys item hmem
        exact applyPatch_lookupKey_preserved k patch doc d hops ha

/-- C5: when the root-level version entry is absent, the merge behaves exactly
    as if the literal string two had first been appended under the version key
    (for every override, including none), and with a nil override that is the
    whole result; when a version entry is present it is left unchanged: the
    nil merge returns the document itself, and any successful merge preserves
    the version entry's value (the settings hypothesis states that override
    setting keys address children of the linters subtree, true of every
    slash-free key). -/
theorem c5_version_defaulting (es : List (String × Yaml)) (doc : Yaml)
    (cfg : Option PluginConfig) (cfg2 : PluginConfig) (w out : Yaml) :
    (lookupEntries es "version" = none →
      MergePluginConfigWithConfig (Yaml.map es) cfg =
        MergePluginConfigWithConfig (Yaml.map (es ++ [("version", Yaml.scalar "2")])) cfg ∧
      MergePluginConfigWithConfig (Yaml.map es) none =
        Except.ok (Yaml.map (es ++ [("version", Yaml.scalar "2")]))) ∧
    (doc.lookupKey "version" = some w →
      MergePluginConfigWithConfig doc none = Except.ok doc ∧
      ((∀ item ∈ cfg2.linters.settings,
          pathShields (mustParsePath ("/linters/settings" ++ "/" ++ item.key.text)) "version") →
        MergePluginConfigWithConfig doc (some cfg2) = Except.ok out →
        out.lookupKey "version" = some w)) := by
  constructor
  · intro habs
    have h1 := versionDefaultStep_absent es habs
    have h2 : versionDefaultStep (Yaml.map (es ++ [("version", Yaml.scalar "2")])) =
        Except.ok (Yaml.map (es ++ [("version", Yaml.scalar "2")])) := by
      apply versionDefaultStep_present _ (Yaml.scalar "2")
      rw [lookupKey_map, lookupEntries_append, habs]
      simp [lookupEntries_cons]
    constructor
    · unfold MergePluginConfigWithConfig
      rw [h1, h2]
    · unfold MergePluginConfigWithConfig
      rw [h1]
  · intro hversion
    have hv := versionDefaultStep_present doc w hversion
    have hnone : MergePluginConfigWithConfig doc none = Except.ok doc := by
      unfold MergePluginConfigWithConfig
      rw [hv]
    refine ⟨hnone, ?_⟩
    intro hsh hmerge
    rw [merge_some_eq_chain, hv] at hmerge
    simp only [Except.bind] at hmerge
    have hwalk2 : ∀ (d : Yaml), ∀ p i,
        walkFirstMissing d (mustParsePath "/linters/enable") 0 "" = Except.ok (some (p, i)) →
        pathShields (mustParsePath p) "version" := by
      intro d
      exact walk_shields_of_spec d ["", "linters", "enable"] "version" rfl
        (by intro j hj1 hj2; simp at hj2; interval_cases j <;> decide)
    have hwalk2d : ∀ (d : Yaml), ∀ p i,
        walkFirstMissing d (mustParsePath "/linters/disable") 0 "" = Except.ok (some (p, i)) →
        pathShields (mustParsePath p) "version" := by
      intro d
      exact walk_shields_of_spec d ["", "linters", "disable"] "version" rfl
        (by intro j hj1 hj2; simp at hj2; interval_cases j <;> decide)
    have hwalks : ∀ (d : Yaml), ∀ p i,
        walkFirstMissing d (mustParsePath "/linters/settings") 0 "" = Except.ok (some (p, i)) →
        pathShields (mustParsePath p) "version" := by
      intro d
      exact walk_shields_of_spec d ["", "linters", "settings"] "version" rfl
        (by intro j hj1 hj2; simp at hj2; interval_cases j <;> decide)
    have hwalkr : ∀ (d : Yaml), ∀ p i,
        walkFirstMissing d (mustParsePath "/linters/exclusions/rules") 0 "" = Except.ok (some (p, i)) →
        pathShields (mustParsePath p) "version" := by
      intro d
      exact walk_shields_of_spec d ["", "linters", "exclusions", "rules"] "version" rfl
        (by intro j hj1 hj2; simp at hj2; interval_cases j <;> decide)
    have hwalkp : ∀ (d : Yaml), ∀ p i,
        walkFirstMissing d (mustParsePath "/linters/exclusions/paths") 0 "" = Except.ok (some (p, i)) →
        pathShields (mustParsePath p) "version" := by
      intro d
      exact walk_shields_of_spec d ["", "linters", "exclusions", "paths"] "version" rfl
        (by intro j hj1 hj2; simp at hj2; interval_cases j <;> decide)
    have hwalkx : ∀ (d : Yaml), ∀ p i,
        walkFirstMissing d (mustParsePath "/linters/exclusions/paths-except") 0 "" = Except.ok (some (p, i)) →
        pathShields (mustParsePath p) "version" := by
      intro d
      exact walk_shields_of_spec d ["", "linters", "exclusions", "paths-except"] "version" rfl
        (by intro j hj1 hj2; simp at hj2; interval_cases j <;> decide)
    rcases h1 : applyAddYAMLSlicePatch doc "/linters/enable" (cfg2.linters.enable.map Yaml.scalar) with e | d1
    · rw [h1] at hmerge
      simp only [Except.bind] at hmerge
      exact absurd hmerge (by simp)
    · rw [h1] at hmerge
      simp only [Except.bind] at hmerge
      have p1 := applyAddYAMLSlicePatch_preserves_key doc d1 "/linters/enable" _ "version"
        (by decide) (hwalk2 doc) h1
      rcases h2 : applyAddYAMLSlicePatch d1 "/linters/disable" (cfg2.linters.disable.map Yaml.scalar) with e | d2
      · rw [h2] at hmerge
        simp only [Except.bind] at hmerge
        exact absurd hmerge (by simp)
      · rw [h2] at hmerge
        simp only [Except.bind] at hmerge
        have p2 := applyAddYAMLSlicePatch_preserves_key d1 d2 "/linters/disable" _ "version"
          (by decide) (hwalk2d d1) h2
        rcases h3 : applyAddOrSetYAMLMapPatch d2 "/linters/settings" cfg2.linters.settings with e | d3
        · rw [h3] at hmerge
          simp only [Except.bind] at hmerge
          exact absurd hmerge (by simp)
        · rw [h3] at hmerge
          simp only [Except.bind] at hmerge
          have p3 := applyAddOrSetYAMLMapPatch_preserves_key d2 d3 "/linters/settings"
            cfg2.linters.settings "version" hsh (hwalks d2) h3
          rcases h4 : applyAddYAMLSlicePatch d3 "/linters/exclusions/rules" (cfg2.linters.exclusions.rules.map RulesConfig.toYaml) with e | d4
          · rw [h4] at hmerge
            simp only [Except.bind] at hmerge
            exact absurd hmerge (by simp)
          · rw [h4] at hmerge
            simp only [Except.bind] at hmerge
            have p4 := applyAddYAMLSlicePatch_preserves_key d3 d4 "/linters/exclusions/rules" _ "version"
              (by decide) (hwalkr d3) h4
            rcases h5 : applyAddYAMLSlicePatch d4 "/linters/exclusions/paths" (cfg2.linters.exclusions.paths.map Yaml.scalar) with e | d5
            · rw [h5] at hmerge
              simp only [Except.bind] at hmerge
              exact absurd hmerge (by simp)
            · rw [h5] at hmerge
              simp only [Except.bind] at hmerge
              have p5 := applyAddYAMLSlicePatch_preserves_key d4 d5 "/linters/exclusions/paths" _ "version"
                (by decide) (hwalkp d4) h5
              have p6 := applyAddYAMLSlicePatch_preserves_key d5 out "/linters/exclusions/paths-except" _ "version"
                (by decide) (hwalkx d5) hmerge
              rw [p6, p5, p4, p3, p2, p1, hversion]

theorem c5_version_defaulting_witness :
    (lookupEntries [("a", Yaml.scalar "x")] "version" = none ∧
     (Yaml.map [("version", Yaml.scalar "7")]).lookupKey "version" = some (Yaml.scalar "7")) ∧
    MergePluginConfigWithConfig (Yaml.map [("a", Yaml.scalar "x")]) none =
      Except.ok (Yaml.map ([("a", Yaml.scalar "x")] ++ [("version", Yaml.scalar "2")])) ∧
    MergePluginConfigWithConfig (Yaml.map [("version", Yaml.scalar "7")]) none =
      Except.ok (Yaml.map [("version", Yaml.scalar "7")]) ∧
    (Yaml.map [("version", Yaml.scalar "7")]).lookupKey "version" = some (Yaml.scalar "7") :=
  ⟨⟨rfl, rfl⟩,
   ((c5_version_defaulting [("a", Yaml.scalar "x")] (Yaml.map [("version", Yaml.scalar "7")])
      none ⟨⟨[], [], [], ⟨[], [], []⟩⟩⟩ (Yaml.scalar "7")
      (Yaml.map [("version", Yaml.scalar "7")])).1 rfl).2,
   ((c5_version_defaulting [("a", Yaml.scalar "x")] (Yaml.map [("version", Yaml.scalar "7")])
      none ⟨⟨[], [], [], ⟨[], [], []⟩⟩⟩ (Yaml.scalar "7")
      (Yaml.map [("version", Yaml.scalar "7")])).2 rfl).1,
   ((c5_version_defaulting [("a", Yaml.scalar "x")] (Yaml.map [("version", Yaml.scalar "7")])
      none ⟨⟨[], [], [], ⟨[], [], []⟩⟩⟩ (Yaml.scalar "7")
      (Yaml.map [("version", Yaml.scalar "7")])).2 rfl).2
     (by intro item hm; cases hm) rfl⟩

/-
Non-string settings key (C8).
-/

theorem createSetLoop_nonstring (doc : Yaml) (yamlPath : String) :
    ∀ (pre : MapSlice) (idx : Nat) (t : String) (v : Yaml) (post : MapSlice),
    (∀ item ∈ pre, (∃ k, item.key = YamlKey.str k) ∧
      ∃ b, checkNodeExists doc (yamlPath ++ "/" ++ item.key.text) = Except.ok b) →
    createSetYAMLMapValuePatchLoop doc yamlPath (pre ++ (⟨YamlKey.nonString t, v⟩ :: post)) idx =
      Except.error ("map key " ++ t ++ " at index " ++ toString (idx + pre.length) ++ " is not a string") := by
  intro pre
  induction pre with
  | nil =>
    intro idx t v post _
    show Except.error ("map key " ++ t ++ " at index " ++ toString idx ++ " is not a string") = _
    simp
  | cons item pre2 ih =>
    intro idx t v post hyp
    obtain ⟨⟨k, hk⟩, b, hb⟩ := hyp item (by simp)
    rcases item with ⟨key, v2⟩
    have hk2 : key = YamlKey.str k := hk
    subst hk2
    show (match checkNodeExists doc (yamlPath ++ "/" ++ k) with
          | Except.error e => Except.error e
          | Except.ok nodeExists =>
            match createSetYAMLMapValuePatchLoop doc yamlPath
                (pre2 ++ ((⟨YamlKey.nonString t, v⟩ : MapItem) :: post)) (idx + 1) with
            | Except.error e => Except.error e
            | Except.ok tail =>
              Except.ok (Operation.mk (if nodeExists then OpType.replace else OpType.add)
                (mustParsePath (yamlPath ++ "/" ++ k)) v2 :: tail)) = _
    have hb2 : checkNodeExists doc (yamlPath ++ "/" ++ k) = Except.ok b := hb
    rw [hb2, ih (idx + 1) t v post (fun it hm => hyp it (by simp [hm]))]
    have hlen : idx + 1 + pre2.length = idx + (pre2.length + 1) := by omega
    simp only [List.length_cons, hlen]

/-- C8: a non-string key in the settings map makes patch construction fail
    with an error naming the key and its index, before any settings patch is
    applied; the merge then returns that error (wrapped with the settings
    path) and, the result being an error, no merged document. -/
theorem c8_nonstring_settings_key (doc : Yaml) (cfg : PluginConfig) (d0 d1 d2 : Yaml)
    (pre : MapSlice) (t : String) (v : Yaml) (post : MapSlice)
    (hset : cfg.linters.settings = pre ++ (⟨YamlKey.nonString t, v⟩ :: post))
    (hpre : ∀ item ∈ pre, (∃ k, item.key = YamlKey.str k) ∧
      ∃ b, checkNodeExists d2 ("/linters/settings" ++ "/" ++ item.key.text) = Except.ok b)
    (hv : versionDefaultStep doc = Except.ok d0)
    (h1 : applyAddYAMLSlicePatch d0 "/linters/enable" (cfg.linters.enable.map Yaml.scalar) = Except.ok d1)
    (h2 : applyAddYAMLSlicePatch d1 "/linters/disable" (cfg.linters.disable.map Yaml.scalar) = Except.ok d2) :
    createSetYAMLMapValuePatch d2 "/linters/settings" cfg.linters.settings =
      Except.error ("map key " ++ t ++ " at index " ++ toString pre.length ++ " is not a string") ∧
    applyAddOrSetYAMLMapPatch d2 "/linters/settings" cfg.linters.settings =
      Except.error ("failed to create patch for " ++ "/linters/settings" ++ ": " ++
        ("map key " ++ t ++ " at index " ++ toString pre.length ++ " is not a string")) ∧
    MergePluginConfigWithConfig doc (some cfg) =
      Except.error ("failed to create patch for " ++ "/linters/settings" ++ ": " ++
        ("map key " ++ t ++ " at index " ++ toString pre.length ++ " is not a string")) := by
  have hloop : createSetYAMLMapValuePatchLoop d2 "/linters/settings" cfg.linters.settings 0 =
      Except.error ("map key " ++ t ++ " at index " ++ toString pre.length ++ " is not a string") := by
    rw [hset]
    have := createSetLoop_nonstring d2 "/linters/settings" pre 0 t v post hpre
    simpa using this
  have hnonempty : ¬ (cfg.linters.settings.isEmpty = true) := by
    rw [hset]
    simp
  have hcreate : createSetYAMLMapValuePatch d2 "/linters/settings" cfg.linters.settings =
      Except.error ("map key " ++ t ++ " at index " ++ toString pre.length ++ " is not a string") := by
    unfold createSetYAMLMapValuePatch
    rw [if_neg hnonempty, hloop]
  have hmap : applyAddOrSetYAMLMapPatch d2 "/linters/settings" cfg.linters.settings =
      Except.error ("failed to create patch for " ++ "/linters/settings" ++ ": " ++
        ("map key " ++ t ++ " at index " ++ toString pre.length ++ " is not a string")) := by
    unfold applyAddOrSetYAMLMapPatch
    rw [if_neg hnonempty, hcreate]
  refine ⟨hcreate, hmap, ?_⟩
  rw [merge_some_eq_chain, hv]
  simp only [Except.bind]
  rw [h1]
  simp only [Except.bind]
  rw [h2]
  simp only [Except.bind]
  rw [hmap]

theorem c8_nonstring_settings_key_witness :
    ((⟨⟨[], [], [⟨YamlKey.nonString "5", Yaml.null⟩], ⟨[], [], []⟩⟩⟩ : PluginConfig).linters.settings =
        [] ++ (⟨YamlKey.nonString "5", Yaml.null⟩ :: []) ∧
     versionDefaultStep (Yaml.map [("version", Yaml.scalar "2")]) =
       Except.ok (Yaml.map [("version", Yaml.scalar "2")])) ∧
    (createSetYAMLMapValuePatch (Yaml.map [("version", Yaml.scalar "2")]) "/linters/settings"
        (⟨⟨[], [], [⟨YamlKey.nonString "5", Yaml.null⟩], ⟨[], [], []⟩⟩⟩ : PluginConfig).linters.settings =
      Except.error ("map key " ++ "5" ++ " at index " ++ toString ([] : MapSlice).length ++ " is not a string") ∧
     applyAddOrSetYAMLMapPatch (Yaml.map [("version", Yaml.scalar "2")]) "/linters/settings"
        (⟨⟨[], [], [⟨YamlKey.nonString "5", Yaml.null⟩], ⟨[], [], []⟩⟩⟩ : PluginConfig).linters.settings =
      Except.error ("failed to create patch for " ++ "/linters/settings" ++ ": " ++
        ("map key " ++ "5" ++ " at index " ++ toString ([] : MapSlice).length ++ " is not a string")) ∧
     MergePluginConfigWithConfig (Yaml.map [("version", Yaml.scalar "2")])
        (some ⟨⟨[], [], [⟨YamlKey.nonString "5", Yaml.null⟩], ⟨[], [], []⟩⟩⟩) =
      Except.error ("failed to create patch for " ++ "/linters/settings" ++ ": " ++
        ("map key " ++ "5" ++ " at index " ++ toString ([] : MapSlice).length ++ " is not a string"))) :=
  ⟨⟨rfl, rfl⟩,
   c8_nonstring_settings_key (Yaml.map [("version", Yaml.scalar "2")])
     ⟨⟨[], [], [⟨YamlKey.nonString "5", Yaml.null⟩], ⟨[], [], []⟩⟩⟩
     (Yaml.map [("version", Yaml.scalar "2")]) (Yaml.map [("version", Yaml.scalar "2")])
     (Yaml.map [("version", Yaml.scalar "2")])
     [] "5" Yaml.null []
     rfl (by intro item hm; cases hm) rfl rfl rfl⟩
